import Mathlib

/-!
# Verification of the 21SIXTY-Scraper resumable extraction core

Shallow embedding of the progressive-scraping core of the repository:

* `src/lib/scraper.ts` (second revision in the file, lines 2028-3358):
  `extractLinkedInProfileProgressive`, `scrapeProfileProgressive`,
  `checkScrapingComplete`, `detectPlatform`, `validateUrl`,
  `validateLinkedInUrl`;
* the continuation store (`getContinuation` / `setContinuation` /
  `deleteContinuation`, 5-minute TTL);
* the rate limiter (`checkRateLimit`, 10 requests per 60 s window);
* the concurrency limiter (`canStartScrape` / `startScrape` /
  `finishScrape`, max 4 active, 5-minute stale threshold);
* the LinkedIn monthly quota (`checkLinkedInMonthlyLimit` /
  `incrementLinkedInScrapeCount`, 100 per month);
* the profile result cache (`getCachedProfile` / `setCachedProfile`);
* the `/api/scrape` POST handler that wires the governors together.

External effects (Playwright page queries, `Date.now()`, `Math.random`,
JSON parsing, the promise race) are modelled as explicit inputs: a page is
a record of the element texts the selectors can find, and clocks, freshly
generated tokens and failure events are parameters of a pass.  The model
covers the LinkedIn platform path of `scrapeProfileProgressive`; the
Instagram and website paths are independent, structurally analogous
extractors that no theorem below depends on.

Times are milliseconds as natural numbers; JS `Map`s are association
lists with update-or-append semantics.
-/

namespace Scraper

/-! ## Data model (`src/lib/types.ts` and usage in `scraper.ts`) -/

/-- One experience entry as built by the progressive extractor
(`title`, `company`, `startDate`, `description` are the fields it fills). -/
structure ExperienceItem where
  title : String
  company : String
  startDate : String
  description : String
deriving Repr, DecidableEq

/-- One education entry as built by the progressive extractor. -/
structure EducationItem where
  school : String
  degree : String
  startDate : String
deriving Repr, DecidableEq

/-- LinkedIn profile record (`LinkedInProfileData`); the `platform`
discriminant is the constant string `"linkedin"` and is left implicit. -/
structure LinkedInProfileData where
  url : String
  name : String
  headline : String
  location : String
  about : String
  experience : List ExperienceItem
  education : List EducationItem
  skills : List String
  profileImage : Option String
deriving Repr, DecidableEq

/-- `PlatformType = 'linkedin' | 'instagram' | 'website'`. -/
inductive PlatformType where
  | linkedin
  | instagram
  | website
deriving Repr, DecidableEq

/-- A URL.  `new URL(url)` is a host-library call; a URL is modelled by
whether it parses plus the parsed hostname and pathname, and carries its
raw source string. -/
structure Url where
  /-- the raw string the URL was given as. -/
  raw : String
  parses : Bool
  hostname : String
  pathname : String
deriving Repr, DecidableEq

/-- The continuation (`ScrapeContinuation`): resumable extraction state.
`partialData` is `Partial<ProfileData>`; it is either the empty object
(`none`, its value at job creation) or a full record (`some`, assigned
wholesale from the result of a pass), which is how the source uses it. -/
structure ScrapeContinuation where
  url : Url
  platform : PlatformType
  sessionId : String
  scrapedSections : List String
  lastScrapedIndex : Nat
  partialData : Option LinkedInProfileData
  timestamp : Nat
  firstVisibleText : Option String
  lastVisibleText : Option String
deriving Repr, DecidableEq

/-! ## String helpers

JavaScript's string primitives (`trim`, `toLowerCase`, `includes`,
`startsWith`), implemented over the character list so that every
definition evaluates inside the kernel. -/

/-- JS `s.trim()`: strip whitespace from both ends. -/
def strTrim (s : String) : String :=
  ⟨((s.data.dropWhile Char.isWhitespace).reverse.dropWhile
      Char.isWhitespace).reverse⟩

/-- JS `s.toLowerCase()`. -/
def strToLower (s : String) : String :=
  ⟨s.data.map Char.toLower⟩

/-- JS `s.startsWith(pre)`. -/
def strStartsWith (s pre : String) : Bool :=
  pre.data.isPrefixOf s.data

/-- Occurrence of `sub` as a contiguous sublist. -/
def listInfix (sub : List Char) : List Char → Bool
  | [] => sub.isEmpty
  | c :: rest => sub.isPrefixOf (c :: rest) || listInfix sub rest

/-- JS `s.includes(sub)`. -/
def strIncludes (s sub : String) : Bool :=
  listInfix sub.data s.data

/-- `detectPlatform` (scraper.ts:2050): hostname test on the parsed URL,
`'website'` when parsing throws. -/
def detectPlatform (u : Url) : PlatformType :=
  if u.parses then
    if strIncludes (strToLower u.hostname) "linkedin.com" then .linkedin
    else if strIncludes (strToLower u.hostname) "instagram.com" then .instagram
    else .website
  else .website

/-- `validateUrl` (scraper.ts:2070): true iff `new URL(url)` does not throw. -/
def validateUrl (u : Url) : Bool := u.parses

/-- `validateLinkedInUrl` (scraper.ts:2082). -/
def validateLinkedInUrl (u : Url) : Bool :=
  u.parses &&
    (u.hostname == "www.linkedin.com" || u.hostname == "linkedin.com") &&
    strStartsWith u.pathname "/in/"

/-! ## Page model

A loaded LinkedIn page, as visible to the selectors of
`extractLinkedInProfileProgressive` (scraper.ts:2633-2799).  Each field
holds the text content found by the corresponding selector chain, `none`
when the selector matches nothing (or `textContent()` is null, which the
source collapses to `''` the same way). -/

/-- Sub-elements of one experience list item. -/
structure ExpElem where
  titleEl : Option String
  companyEl : Option String
  dateEl : Option String
  descEl : Option String
deriving Repr, DecidableEq

/-- Sub-elements of one education list item. -/
structure EduElem where
  schoolEl : Option String
  degreeEl : Option String
  dateEl : Option String
deriving Repr, DecidableEq

structure LinkedInPage where
  nameEl : Option String
  headlineEl : Option String
  locationEl : Option String
  /-- about section found together with its inner text element. -/
  aboutEl : Option String
  experienceSection : Option (List ExpElem)
  educationSection : Option (List EduElem)
  skillsSection : Option (List (Option String))
  /-- profile image element with its `src` attribute (`null` src as `""`). -/
  profileImgEl : Option String
deriving Repr, DecidableEq

/-- `(await el?.textContent())?.trim() || ''`. -/
def textOf (o : Option String) : String :=
  (o.map strTrim).getD ""

/-! ## The progressive LinkedIn extractor (scraper.ts:2633-2799)

The source mutates `data` and `continuation` in place; the embedding
threads the pair `(data, continuation)` through one step per section, in
source order. -/

/-- The `data` initializer at the top of the extractor:
existing partial data with every missing field defaulted
(`existingData.name || ''` etc.), `url` overwritten. -/
def initData (url : String) (existing : Option LinkedInProfileData) :
    LinkedInProfileData :=
  match existing with
  | none => ⟨url, "", "", "", "", [], [], [], none⟩
  | some d => { d with url := url }

/-- Name section (scraper.ts:2657-2665). -/
def stepName (page : LinkedInPage)
    (dc : LinkedInProfileData × ScrapeContinuation) :
    LinkedInProfileData × ScrapeContinuation :=
  if dc.2.scrapedSections.contains "name" then dc
  else
    match page.nameEl with
    | some t =>
        ({ dc.1 with name := textOf (some t) },
         { dc.2 with scrapedSections := dc.2.scrapedSections ++ ["name"] })
    | none => dc

/-- Headline section (scraper.ts:2668-2676). -/
def stepHeadline (page : LinkedInPage)
    (dc : LinkedInProfileData × ScrapeContinuation) :
    LinkedInProfileData × ScrapeContinuation :=
  if dc.2.scrapedSections.contains "headline" then dc
  else
    match page.headlineEl with
    | some t =>
        ({ dc.1 with headline := textOf (some t) },
         { dc.2 with scrapedSections := dc.2.scrapedSections ++ ["headline"] })
    | none => dc

/-- Location section (scraper.ts:2679-2687). -/
def stepLocation (page : LinkedInPage)
    (dc : LinkedInProfileData × ScrapeContinuation) :
    LinkedInProfileData × ScrapeContinuation :=
  if dc.2.scrapedSections.contains "location" then dc
  else
    match page.locationEl with
    | some t =>
        ({ dc.1 with location := textOf (some t) },
         { dc.2 with scrapedSections := dc.2.scrapedSections ++ ["location"] })
    | none => dc

/-- About section (scraper.ts:2690-2701). -/
def stepAbout (page : LinkedInPage)
    (dc : LinkedInProfileData × ScrapeContinuation) :
    LinkedInProfileData × ScrapeContinuation :=
  if dc.2.scrapedSections.contains "about" then dc
  else
    match page.aboutEl with
    | some t =>
        ({ dc.1 with about := textOf (some t) },
         { dc.2 with scrapedSections := dc.2.scrapedSections ++ ["about"] })
    | none => dc

/-- The experience record assembled for one list item (scraper.ts:2718-2723). -/
def mkExperience (it : ExpElem) : ExperienceItem :=
  ⟨textOf it.titleEl, textOf it.companyEl, textOf it.dateEl, textOf it.descEl⟩

/-- An item is committed iff its extracted title is truthy (scraper.ts:2725). -/
def isCommitted (it : ExpElem) : Bool :=
  (mkExperience it).title != ""

/-- The `for (let i = startIndex; i < experienceItems.length; i++)` loop
(scraper.ts:2710-2731), on the items from the start index up, with `i`
the source index of the head item.  A committed item is appended to
`data.experience`, tagged in `scrapedSections`, and moves
`lastScrapedIndex` to `i + 1`; an uncommitted item changes nothing. -/
def expLoop : List ExpElem → Nat →
    LinkedInProfileData × ScrapeContinuation →
    LinkedInProfileData × ScrapeContinuation
  | [], _, dc => dc
  | it :: rest, i, dc =>
      let dc' :=
        if isCommitted it then
          ({ dc.1 with experience := dc.1.experience ++ [mkExperience it] },
           { dc.2 with
              scrapedSections :=
                dc.2.scrapedSections ++ ["experience-" ++ toString i],
              lastScrapedIndex := i + 1 })
        else dc
      expLoop rest (i + 1) dc'

/-- Experience section (scraper.ts:2704-2737). -/
def stepExperience (page : LinkedInPage)
    (dc : LinkedInProfileData × ScrapeContinuation) :
    LinkedInProfileData × ScrapeContinuation :=
  if dc.2.scrapedSections.contains "experience-complete" then dc
  else
    match page.experienceSection with
    | none => dc
    | some items =>
        let startIndex := dc.2.lastScrapedIndex
        let dc' := expLoop (items.drop startIndex) startIndex dc
        if startIndex ≥ items.length then
          (dc'.1,
           { dc'.2 with
              scrapedSections := dc'.2.scrapedSections ++ ["experience-complete"] })
        else dc'

/-- The education record assembled for one list item (scraper.ts:2751-2755). -/
def mkEducation (e : EduElem) : EducationItem :=
  ⟨textOf e.schoolEl, textOf e.degreeEl, textOf e.dateEl⟩

/-- Education section (scraper.ts:2740-2765): items with a truthy school
are appended; the `'education'` tag is pushed whenever the section element
exists. -/
def stepEducation (page : LinkedInPage)
    (dc : LinkedInProfileData × ScrapeContinuation) :
    LinkedInProfileData × ScrapeContinuation :=
  if dc.2.scrapedSections.contains "education" then dc
  else
    match page.educationSection with
    | none => dc
    | some items =>
        ({ dc.1 with
            education := dc.1.education ++
              items.filterMap fun e =>
                if (mkEducation e).school != "" then some (mkEducation e)
                else none },
         { dc.2 with scrapedSections := dc.2.scrapedSections ++ ["education"] })

/-- Skills section (scraper.ts:2768-2782): truthy trimmed texts appended. -/
def stepSkills (page : LinkedInPage)
    (dc : LinkedInProfileData × ScrapeContinuation) :
    LinkedInProfileData × ScrapeContinuation :=
  if dc.2.scrapedSections.contains "skills" then dc
  else
    match page.skillsSection with
    | none => dc
    | some els =>
        ({ dc.1 with
            skills := dc.1.skills ++
              els.filterMap fun o =>
                match o with
                | some t => if strTrim t != "" then some (strTrim t) else none
                | none => none },
         { dc.2 with scrapedSections := dc.2.scrapedSections ++ ["skills"] })

/-- Profile image (scraper.ts:2785-2793): `src || undefined`. -/
def stepProfileImage (page : LinkedInPage)
    (dc : LinkedInProfileData × ScrapeContinuation) :
    LinkedInProfileData × ScrapeContinuation :=
  if dc.2.scrapedSections.contains "profileImage" then dc
  else
    match page.profileImgEl with
    | some src =>
        ({ dc.1 with profileImage := if src == "" then none else some src },
         { dc.2 with scrapedSections := dc.2.scrapedSections ++ ["profileImage"] })
    | none => dc

/-- `extractLinkedInProfileProgressive` (scraper.ts:2633-2799): initialize
`data` from the partial record, then run the section steps in source
order, returning the extracted record and the updated continuation. -/
def extractLinkedInProfileProgressive (page : LinkedInPage) (url : String)
    (cont : ScrapeContinuation) :
    LinkedInProfileData × ScrapeContinuation :=
  stepProfileImage page
    (stepSkills page
      (stepEducation page
        (stepExperience page
          (stepAbout page
            (stepLocation page
              (stepHeadline page
                (stepName page (initData url cont.partialData, cont))))))))

/-! ## Completion check (scraper.ts:3340-3349) -/

/-- The category-specific required-part lists. -/
def requiredSections : PlatformType → List String
  | .linkedin => ["name", "headline", "about", "experience", "education", "skills"]
  | .instagram => ["username", "fullName", "biography", "stats"]
  | .website => ["title", "textContent"]

/-- `checkScrapingComplete`: every required section must have *some*
scraped section starting with it (`s.startsWith(section)`). -/
def checkScrapingComplete (platform : PlatformType)
    (scrapedSections : List String) : Bool :=
  (requiredSections platform).all fun sec =>
    scrapedSections.any fun s => strStartsWith s sec

/-! ## Continuation store (`lib/continuationStore.ts`, 5-minute TTL)

A JS `Map<string, StoredContinuation>`; `set` replaces in place or
appends, iteration-based cleanup filters expired entries. -/

def CONTINUATION_TTL : Nat := 5 * 60 * 1000

structure StoredContinuation where
  continuation : ScrapeContinuation
  expiresAt : Nat
deriving Repr, DecidableEq

abbrev ContStore := List (String × StoredContinuation)

/-- Assoc-list lookup, first match (JS `Map.get`). -/
def lookupStore {α : Type} : List (String × α) → String → Option α
  | [], _ => none
  | (k, v) :: rest, key => if k == key then some v else lookupStore rest key

/-- JS `Map.set`: replace the existing entry or append a new one. -/
def setStore {α : Type} : List (String × α) → String → α → List (String × α)
  | [], key, v => [(key, v)]
  | (k, w) :: rest, key, v =>
      if k == key then (k, v) :: rest else (k, w) :: setStore rest key v

/-- JS `Map.delete`. -/
def deleteStore {α : Type} (s : List (String × α)) (key : String) :
    List (String × α) :=
  s.filter fun p => p.1 != key

/-- `cleanupExpired` (continuationStore.ts:20-27). -/
def cleanupExpired (now : Nat) (s : ContStore) : ContStore :=
  s.filter fun p => !(p.2.expiresAt < now)

/-- `getContinuation` (continuationStore.ts:32-43); returns the value and
the store after the cleanup side effect. -/
def getContinuation (now : Nat) (token : String) (s : ContStore) :
    Option ScrapeContinuation × ContStore :=
  let s := cleanupExpired now s
  match lookupStore s token with
  | none => (none, s)
  | some stored =>
      if stored.expiresAt < now then (none, deleteStore s token)
      else (some stored.continuation, s)

/-- `setContinuation` (continuationStore.ts:48-52). -/
def setContinuation (now : Nat) (token : String)
    (continuation : ScrapeContinuation) (s : ContStore) : ContStore :=
  setStore (cleanupExpired now s) token ⟨continuation, now + CONTINUATION_TTL⟩

/-- `deleteContinuation` (continuationStore.ts:57-59).  No call site
exists anywhere in the sources. -/
def deleteContinuation (token : String) (s : ContStore) : ContStore :=
  deleteStore s token

/-! ## Rate limiter (`lib/rateLimit.ts` / profileCache.ts lines 87-151):
fixed 60 s window, 10 requests per key. -/

def RATE_LIMIT_WINDOW_MS : Nat := 60 * 1000
def RATE_LIMIT_MAX_REQUESTS : Nat := 10

structure RateLimitEntry where
  count : Nat
  resetTime : Nat
deriving Repr, DecidableEq

abbrev RateStore := List (String × RateLimitEntry)

structure RateLimitResult where
  allowed : Bool
  remaining : Nat
  resetTime : Nat
deriving Repr, DecidableEq

/-- `cleanupOldEntries` for the rate limiter. -/
def rateCleanup (now : Nat) (s : RateStore) : RateStore :=
  s.filter fun p => !(p.2.resetTime < now)

/-- `checkRateLimit` (rateLimit.ts): create/reset the entry on a fresh or
expired window, block at the cap, otherwise increment. -/
def checkRateLimit (now : Nat) (key : String) (s : RateStore) :
    RateLimitResult × RateStore :=
  let s := rateCleanup now s
  match lookupStore s key with
  | none =>
      (⟨true, RATE_LIMIT_MAX_REQUESTS - 1, now + RATE_LIMIT_WINDOW_MS⟩,
       setStore s key ⟨1, now + RATE_LIMIT_WINDOW_MS⟩)
  | some entry =>
      if entry.resetTime < now then
        (⟨true, RATE_LIMIT_MAX_REQUESTS - 1, now + RATE_LIMIT_WINDOW_MS⟩,
         setStore s key ⟨1, now + RATE_LIMIT_WINDOW_MS⟩)
      else if entry.count ≥ RATE_LIMIT_MAX_REQUESTS then
        (⟨false, 0, entry.resetTime⟩, s)
      else
        (⟨true, RATE_LIMIT_MAX_REQUESTS - (entry.count + 1), entry.resetTime⟩,
         setStore s key ⟨entry.count + 1, entry.resetTime⟩)

/-! ## Concurrency limiter (`lib/concurrentLimit.ts`): at most 4 active
scrapes, entries older than 5 minutes forcibly reclaimed. -/

structure ActiveScrape where
  id : String
  url : Url
  startTime : Nat
deriving Repr, DecidableEq

abbrev ConcStore := List (String × ActiveScrape)

def MAX_CONCURRENT_SCRAPES : Nat := 4
def STALE_THRESHOLD : Nat := 5 * 60 * 1000

/-- `cleanupStaleEntries` (concurrentLimit.ts:25-34). -/
def cleanupStaleEntries (now : Nat) (s : ConcStore) : ConcStore :=
  s.filter fun p => !(now - p.2.startTime > STALE_THRESHOLD)

structure ConcCheck where
  allowed : Bool
  activeCount : Nat
  maxConcurrent : Nat
deriving Repr, DecidableEq

/-- `canStartScrape` (concurrentLimit.ts:39-61); returns the check result
and the store after cleanup. -/
def canStartScrape (now : Nat) (s : ConcStore) : ConcCheck × ConcStore :=
  let s := cleanupStaleEntries now s
  let activeCount := s.length
  if activeCount ≥ MAX_CONCURRENT_SCRAPES then
    (⟨false, activeCount, MAX_CONCURRENT_SCRAPES⟩, s)
  else
    (⟨true, activeCount, MAX_CONCURRENT_SCRAPES⟩, s)

/-- `startScrape` (concurrentLimit.ts:67-83): throws when the (cleaned)
map is full, otherwise registers the new id.  The generated id is an
input (it comes from `Date.now` + `Math.random`).  The map state after
the cleanup side effect is returned on the throwing path as well. -/
def startScrape (now : Nat) (newId : String) (url : Url) (s : ConcStore) :
    Except String String × ConcStore :=
  let s := cleanupStaleEntries now s
  let check := (canStartScrape now s).1
  if !check.allowed then
    (.error "Concurrent scrape limit reached.", s)
  else
    (.ok newId, setStore s newId ⟨newId, url, now⟩)

/-- `finishScrape` (concurrentLimit.ts:88-91): delete, then cleanup. -/
def finishScrape (now : Nat) (scrapeId : String) (s : ConcStore) : ConcStore :=
  cleanupStaleEntries now (deleteStore s scrapeId)

/-! ## LinkedIn monthly quota (`lib/linkedinLimit.ts`): 100 per month,
a single `'linkedin_monthly'` entry keyed by a `YYYY-MM` month string. -/

def LINKEDIN_MONTHLY_LIMIT : Nat := 100

structure MonthlyLimit where
  count : Nat
  month : String
deriving Repr, DecidableEq

/-- The store holds at most the one `'linkedin_monthly'` entry. -/
abbrev QuotaStore := Option MonthlyLimit

/-- `cleanupOldEntries` (linkedinLimit.ts:28-35). -/
def quotaCleanup (currentMonth : String) (q : QuotaStore) : QuotaStore :=
  match q with
  | none => none
  | some e => if e.month != currentMonth then none else some e

structure QuotaCheck where
  allowed : Bool
  count : Nat
  limit : Nat
  remaining : Nat
deriving Repr, DecidableEq

/-- `checkLinkedInMonthlyLimit` (linkedinLimit.ts:40-80). -/
def checkLinkedInMonthlyLimit (currentMonth : String) (q : QuotaStore) :
    QuotaCheck × QuotaStore :=
  let q := quotaCleanup currentMonth q
  match q with
  | none =>
      (⟨true, 0, LINKEDIN_MONTHLY_LIMIT, LINKEDIN_MONTHLY_LIMIT⟩,
       some ⟨0, currentMonth⟩)
  | some entry =>
      if entry.month != currentMonth then
        (⟨true, 0, LINKEDIN_MONTHLY_LIMIT, LINKEDIN_MONTHLY_LIMIT⟩,
         some ⟨0, currentMonth⟩)
      else if entry.count ≥ LINKEDIN_MONTHLY_LIMIT then
        (⟨false, entry.count, LINKEDIN_MONTHLY_LIMIT, 0⟩, some entry)
      else
        (⟨true, entry.count, LINKEDIN_MONTHLY_LIMIT,
          LINKEDIN_MONTHLY_LIMIT - entry.count⟩, some entry)

/-- `incrementLinkedInScrapeCount` (linkedinLimit.ts:85-100). -/
def incrementLinkedInScrapeCount (currentMonth : String) (q : QuotaStore) :
    QuotaStore :=
  let q := quotaCleanup currentMonth q
  match q with
  | none => some ⟨1, currentMonth⟩
  | some entry =>
      if entry.month != currentMonth then some ⟨1, currentMonth⟩
      else some ⟨entry.count + 1, currentMonth⟩

/-- The quota counter visible for a month (0 when the entry is missing or
belongs to another month). -/
def quotaCount (currentMonth : String) (q : QuotaStore) : Nat :=
  match q with
  | none => 0
  | some e => if e.month == currentMonth then e.count else 0

/-! ## Result cache (`lib/profileCache.ts` lines 1-85): TTL-keyed records,
lazy expiry on read. -/

structure CachedProfile where
  data : LinkedInProfileData
  timestamp : Nat
  ttl : Nat
deriving Repr, DecidableEq

abbrev CacheStore := List (String × CachedProfile)

def DEFAULT_TTL : Nat := 24 * 60 * 60 * 1000

/-- `getCachedProfile` (profileCache.ts:22-36): miss on absent, evict and
miss on expired, hit otherwise.  Returns the value with the store after
the lazy-eviction side effect. -/
def getCachedProfile (now : Nat) (url : String) (s : CacheStore) :
    Option LinkedInProfileData × CacheStore :=
  match lookupStore s url with
  | none => (none, s)
  | some cached =>
      if now - cached.timestamp > cached.ttl then (none, deleteStore s url)
      else (some cached.data, s)

/-- `setCachedProfile` (profileCache.ts:41-51). -/
def setCachedProfile (now : Nat) (url : String) (data : LinkedInProfileData)
    (ttl : Nat) (s : CacheStore) : CacheStore :=
  setStore s url ⟨data, now, ttl⟩

/-! ## One pass of `scrapeProfileProgressive` (scraper.ts:3121-3335)

The browser work of a pass is summarized by a `PassEnv`: the failure
event (if launching or navigating the worker threw), the first/last
visible text the priority extraction would find, the elapsed time at the
deadline check, the loaded page, the wall clock, and the token
`generateToken` would produce for a fresh job.  The deliverable of a pass
is a `ProgressiveScrapeResult` or a thrown error, together with the
continuation-store side effects.  The model covers the LinkedIn branch of
the platform switch; the Instagram/website branches are separate
analogous extractors that no theorem here mentions. -/

def MAX_EXECUTION_TIME : Nat := 9000

structure ProgressiveScrapeResult where
  /-- `none` encodes `continuationState.partialData` being the empty
  object cast to `ProfileData`. -/
  data : Option LinkedInProfileData
  isComplete : Bool
  continuation : Option ScrapeContinuation
  firstVisibleText : String
  lastVisibleText : String
deriving Repr, DecidableEq

inductive PassOutcome where
  | ok (r : ProgressiveScrapeResult)
  | err (msg : String)
deriving Repr, DecidableEq

structure PassEnv where
  /-- `some msg`: browser launch / page open / navigation threw. -/
  fail : Option String
  firstLast : String × String
  /-- elapsed milliseconds at the deadline check after navigation. -/
  elapsed : Nat
  page : LinkedInPage
  now : Nat
  freshToken : String
deriving Repr, DecidableEq

/-- The fresh continuation built when no token was presented
(scraper.ts:3135-3143). -/
def freshContinuation (url : Url) (env : PassEnv) : ScrapeContinuation :=
  { url := url, platform := detectPlatform url, sessionId := env.freshToken,
    scrapedSections := [], lastScrapedIndex := 0, partialData := none,
    timestamp := env.now, firstVisibleText := none, lastVisibleText := none }

/-- The `catch` block (scraper.ts:3313-3334): with a non-empty partial
record the failure is downgraded to a resumable `complete:false` outcome
and the continuation persisted; with an empty one the error is rethrown
wrapped. -/
def catchPath (state : ScrapeContinuation) (fvt lvt msg : String)
    (now : Nat) (store : ContStore) : PassOutcome × ContStore :=
  if state.partialData.isSome then
    let st := { state with timestamp := now }
    (.ok ⟨st.partialData, false, some st, fvt, lvt⟩,
     setContinuation now st.sessionId st store)
  else
    (.err ("Failed to scrape profile: " ++ msg), store)

/-- The priority first/last-visible-text extraction (scraper.ts:3215-3221):
when either text is still empty, both are (re)extracted and written into
the continuation.  Returns `(firstVisibleText, lastVisibleText, state)`. -/
def applyFirstLast (env : PassEnv) (state0 : ScrapeContinuation) :
    String × String × ScrapeContinuation :=
  if state0.firstVisibleText.getD "" == "" ||
      state0.lastVisibleText.getD "" == "" then
    (env.firstLast.1, env.firstLast.2,
     { state0 with firstVisibleText := some env.firstLast.1,
                   lastVisibleText := some env.firstLast.2 })
  else
    (state0.firstVisibleText.getD "", state0.lastVisibleText.getD "", state0)

/-- The deadline check (scraper.ts:3223-3238): persist and return
resumable when elapsed time reached `MAX_EXECUTION_TIME`. -/
def deadlineReturn (state1 : ScrapeContinuation) (fvt lvt : String)
    (now : Nat) (store : ContStore) : PassOutcome × ContStore :=
  (.ok ⟨state1.partialData, false, some { state1 with timestamp := now },
      fvt, lvt⟩,
   setContinuation now state1.sessionId { state1 with timestamp := now } store)

/-- The `case 'linkedin'` arm of the platform switch together with the
completion decision (scraper.ts:3244-3257, 3286-3312). -/
def linkedinArm (url : Url) (state1 : ScrapeContinuation) (fvt lvt : String)
    (env : PassEnv) (store : ContStore) : PassOutcome × ContStore :=
  if !validateLinkedInUrl url then
    catchPath state1 fvt lvt "Invalid LinkedIn profile URL" env.now store
  else
    match extractLinkedInProfileProgressive env.page url.raw state1 with
    | (profileData, state2) =>
        if checkScrapingComplete .linkedin state2.scrapedSections then
          (.ok ⟨some profileData, true, none, fvt, lvt⟩, store)
        else
          (.ok ⟨some profileData, false,
              some { state2 with partialData := some profileData,
                                 timestamp := env.now }, fvt, lvt⟩,
           setContinuation env.now state2.sessionId
             { state2 with partialData := some profileData,
                           timestamp := env.now } store)

/-- `scrapeProfileProgressive` (scraper.ts:3121-3335), one pass. -/
def runPass (url : Url) (contIn : Option ScrapeContinuation) (env : PassEnv)
    (store : ContStore) : PassOutcome × ContStore :=
  if !validateUrl url then (.err "Invalid URL format", store)
  else
    match env.fail, contIn.getD (freshContinuation url env) with
    | some msg, state0 =>
        catchPath state0 (state0.firstVisibleText.getD "")
          (state0.lastVisibleText.getD "") msg env.now store
    | none, state0 =>
        match applyFirstLast env state0 with
        | (fvt, lvt, state1) =>
            if env.elapsed ≥ MAX_EXECUTION_TIME then
              deadlineReturn state1 fvt lvt env.now store
            else
              match detectPlatform url with
              | .linkedin => linkedinArm url state1 fvt lvt env store
              | .instagram => (.err "model scope: non-LinkedIn platform", store)
              | .website => (.err "model scope: non-LinkedIn platform", store)

/-! ## Priority resolver (pinned dataset, then result cache) -/

/-- The outcome of resolving a request key. -/
inductive Resolution where
  | resolved (record : LinkedInProfileData)
  | needsExtraction
deriving Repr, DecidableEq

/-- Modelled from the spec: the pinned/static dataset
(`lib/staticProfiles.ts`) and the request path's pinned-then-cache
resolution chain are not among the sources; only `getCachedProfile`
(profileCache.ts) and the documented lookup order ("1. Static Profiles,
2. Cached Profiles, 3. Live Scraping") are.  Per §4.1 of the spec: step 1
looks the normalized key up in the pinned dataset and, on a hit, returns
immediately, also writing the record into the result cache; step 2
consults the result cache (lazy expiry); step 3 signals that a live
extraction is required.  The pinned dataset itself is the abstract lookup
function `pinned`. -/
def resolveProfile (pinned : String → Option LinkedInProfileData)
    (now : Nat) (key : String) (cache : CacheStore) :
    Resolution × CacheStore :=
  match pinned key with
  | some record =>
      (.resolved record, setCachedProfile now key record DEFAULT_TTL cache)
  | none =>
      let gc := getCachedProfile now key cache
      match gc.1 with
      | some record => (.resolved record, gc.2)
      | none => (.needsExtraction, gc.2)

/-! ## The `/api/scrape` POST handler (`src/app/api/scrape/route.ts`,
first revision, lines 12-241)

JSON parsing is assumed to succeed; a missing or non-string `url` field
is `none`.  The promise race against the 8 s timer is an input flag; the
scrape promise runs to its end in either case (the handler awaits it on
the timeout branch too), so its continuation-store effects always apply. -/

structure RouteRequest where
  ip : String
  url : Option Url
  continuationToken : Option String
deriving Repr, DecidableEq

structure RouteEnv where
  pass : PassEnv
  /-- the 8-second `Promise.race` timer won. -/
  raceTimedOut : Bool
  scrapeId : String
  now : Nat
  month : String
deriving Repr, DecidableEq

structure RouteState where
  rate : RateStore
  active : ConcStore
  quota : QuotaStore
  conts : ContStore
deriving Repr, DecidableEq

inductive RouteResponse where
  | rateLimited (resetTime : Nat)
  | invalidToken
  | missingUrl
  | concurrencyLimited (activeCount : Nat)
  | quotaLimited (count limit remaining : Nat)
  | startScrapeFailed (msg : String)
  /-- line 148: partial results after the race timed out (success JSON,
  `isComplete:false`, no continuation token field). -/
  | partialAfterTimeout (r : ProgressiveScrapeResult)
  | scrapeError (msg : String) (status : Nat)
  | success (url : Url) (r : ProgressiveScrapeResult) (token : Option String)
deriving Repr, DecidableEq

/-- Error-JSON dispatch of the inner catch (route.ts:164-178). -/
def scrapeErrorResponse (msg : String) : RouteResponse :=
  .scrapeError msg
    (if strIncludes msg "timeout" || strIncludes msg "Timeout" then 504 else 500)

/-- The scrape phase of the handler (route.ts:123-218): run the pass
(racing the 8 s timer), increment the LinkedIn quota when the race was
won and a result came back for a LinkedIn target, store the continuation
token for an incomplete result, and release the concurrency slot
(`finally`). -/
def postScrapePhase (targetUrl : Url)
    (continuation : Option ScrapeContinuation) (env : RouteEnv)
    (st : RouteState) : RouteResponse × RouteState :=
  match runPass targetUrl continuation env.pass st.conts with
  | (out, conts1) =>
      let st1 : RouteState := { st with conts := conts1 }
      let finish := fun (s : RouteState) =>
        { s with active := finishScrape env.now env.scrapeId s.active }
      if env.raceTimedOut then
        match out with
        | .ok r => (.partialAfterTimeout r, finish st1)
        | .err msg => (scrapeErrorResponse msg, finish st1)
      else
        match out with
        | .err msg => (scrapeErrorResponse msg, finish st1)
        | .ok r =>
            let st2 :=
              if detectPlatform targetUrl == .linkedin then
                { st1 with
                   quota := incrementLinkedInScrapeCount env.month st1.quota }
              else st1
            let tk : Option String × ContStore :=
              match r.isComplete, r.continuation with
              | false, some c =>
                  (some c.sessionId,
                   setContinuation env.now c.sessionId c st2.conts)
              | _, _ => (none, st2.conts)
            (.success targetUrl r tk.1, finish { st2 with conts := tk.2 })

/-- The POST handler (route.ts:12-241).  Returns the response and the
final governor/store state; the `finally` clause releases the concurrency
slot on every path that registered one. -/
def POST (req : RouteRequest) (env : RouteEnv) (st : RouteState) :
    RouteResponse × RouteState :=
  let rc := checkRateLimit env.now req.ip st.rate
  let st := { st with rate := rc.2 }
  if !rc.1.allowed then (.rateLimited rc.1.resetTime, st)
  else
    let tgt : Option (Url × Option ScrapeContinuation) × RouteState :=
      match req.continuationToken with
      | some tok =>
          let gc := getContinuation env.now tok st.conts
          match gc.1 with
          | none => (none, { st with conts := gc.2 })
          | some c => (some (c.url, some c), { st with conts := gc.2 })
      | none =>
          match req.url with
          | none => (none, st)
          | some u => (some (u, none), st)
    let st := tgt.2
    match tgt.1 with
    | none =>
        (if req.continuationToken.isSome then .invalidToken else .missingUrl, st)
    | some (targetUrl, continuation) =>
        let cc := canStartScrape env.now st.active
        let st := { st with active := cc.2 }
        if !cc.1.allowed then (.concurrencyLimited cc.1.activeCount, st)
        else
          let platform := detectPlatform targetUrl
          let qchk :=
            if platform == .linkedin then
              checkLinkedInMonthlyLimit env.month st.quota
            else (⟨true, 0, LINKEDIN_MONTHLY_LIMIT, LINKEDIN_MONTHLY_LIMIT⟩,
                  st.quota)
          let st := { st with quota := qchk.2 }
          if !qchk.1.allowed then
            (.quotaLimited qchk.1.count qchk.1.limit qchk.1.remaining, st)
          else
            let ss := startScrape env.now env.scrapeId targetUrl st.active
            let st := { st with active := ss.2 }
            match ss.1 with
            | .error msg => (.startScrapeFailed msg, st)
            | .ok _ => postScrapePhase targetUrl continuation env st

/-! ## Derived notions used by the statements below -/

/-- Across-pass monotonicity of a continuation: the scraped-section list
only ever grows at the end, and the cursor never decreases. -/
def contMono (a b : ScrapeContinuation) : Prop :=
  a.scrapedSections <+: b.scrapedSections ∧
    a.lastScrapedIndex ≤ b.lastScrapedIndex

/-- One resumption step: run a pass on the continuation and take the
continuation it hands back (`none` when the job completed or errored,
ending the chain). -/
def passNext (env : PassEnv) (url : Url) (c : ScrapeContinuation) :
    Option ScrapeContinuation :=
  match (runPass url (some c) env []).1 with
  | .ok r => r.continuation
  | .err _ => none

/-- A sequence of resumption passes threaded through the continuations
they return. -/
def passChain (url : Url) : List PassEnv → ScrapeContinuation →
    Option ScrapeContinuation
  | [], c => some c
  | e :: rest, c =>
      match passNext e url c with
      | none => none
      | some c' => passChain url rest c'

/-- Index of the first element satisfying `p`, if any. -/
def findFirstIdx {α : Type} (p : α → Bool) : List α → Option Nat
  | [] => none
  | a :: l => if p a then some 0 else (findFirstIdx p l).map (· + 1)

/-- Where the experience cursor stands after one pass over `items`
beginning at `start`: one past the last committed item, or `start` when
no item was committed (found via the first committed item of the
reversed list). -/
def cursorAfter (items : List ExpElem) (start : Nat) : Nat :=
  match findFirstIdx isCommitted items.reverse with
  | some k => start + (items.length - k)
  | none => start

/-- The committed experience record of an item, `none` when malformed. -/
def commitFn (it : ExpElem) : Option ExperienceItem :=
  if isCommitted it then some (mkExperience it) else none

/-- A sequence of rate-limiter calls for one key, collecting results. -/
def runRateCalls (key : String) :
    List Nat → RateStore → List RateLimitResult × RateStore
  | [], s => ([], s)
  | t :: ts, s =>
      ((checkRateLimit t key s).1 ::
         (runRateCalls key ts (checkRateLimit t key s).2).1,
       (runRateCalls key ts (checkRateLimit t key s).2).2)

/-- Operations on the concurrency limiter. -/
inductive ConcOp where
  | canStart (now : Nat)
  | start (now : Nat) (id : String) (url : Url)
  | finish (now : Nat) (id : String)
deriving Repr, DecidableEq

/-- State effect of one concurrency-limiter operation. -/
def concStep (s : ConcStore) : ConcOp → ConcStore
  | .canStart now => (canStartScrape now s).2
  | .start now id url => (startScrape now id url s).2
  | .finish now id => finishScrape now id s

/-- One request to the POST handler together with its environment. -/
structure RouteCall where
  req : RouteRequest
  env : RouteEnv
deriving Repr, DecidableEq

/-- Thread a sequence of requests through the handler. -/
def routeRun : List RouteCall → RouteState → RouteState
  | [], st => st
  | c :: rest, st => routeRun rest (POST c.req c.env st).2

/-- A call counts as a successful LinkedIn extraction iff the handler
answers with the scrape-result response (the race was won by the scrape
and the pass resolved) for a LinkedIn target. -/
def isLinkedInSuccess (c : RouteCall) (st : RouteState) : Bool :=
  match (POST c.req c.env st).1 with
  | .success u _ _ => detectPlatform u == .linkedin
  | _ => false

/-- Number of successful LinkedIn extractions along a request sequence. -/
def successCount : List RouteCall → RouteState → Nat
  | [], _ => 0
  | c :: rest, st =>
      (if isLinkedInSuccess c st then 1 else 0) +
        successCount rest (POST c.req c.env st).2

/-- A response that rejects the request (anything that is not a scrape
result). -/
def isRejection : RouteResponse → Bool
  | .success _ _ _ => false
  | .partialAfterTimeout _ => false
  | _ => true

/-- 1 exactly on a scrape-result response for a LinkedIn target. -/
def successIndicator : RouteResponse → Nat
  | .success u _ _ => if detectPlatform u == .linkedin then 1 else 0
  | _ => 0

/-! ## Concrete sample values for the closed statements -/

/-- A page on which no selector finds anything. -/
def emptyPage : LinkedInPage := ⟨none, none, none, none, none, none, none, none⟩

/-- A well-formed LinkedIn profile URL. -/
def liUrl : Url :=
  ⟨"https://www.linkedin.com/in/jane", true, "www.linkedin.com", "/in/jane"⟩

/-- A string that `new URL` rejects. -/
def badUrl : Url := ⟨"notaurl", false, "", ""⟩

/-- A sample extracted record. -/
def sampleProfile : LinkedInProfileData :=
  ⟨"https://www.linkedin.com/in/jane", "Jane", "Engineer", "NL", "About",
   [], [], [], none⟩

/-- A pass environment in which the worker navigation fails. -/
def failEnv : PassEnv :=
  { fail := some "nav crash", firstLast := ("", ""), elapsed := 0,
    page := emptyPage, now := 5, freshToken := "T" }

/-- A partially-completed sample job. -/
def sampleCont : ScrapeContinuation :=
  { url := liUrl, platform := .linkedin, sessionId := "S",
    scrapedSections := ["name"], lastScrapedIndex := 2,
    partialData := some sampleProfile, timestamp := 0,
    firstVisibleText := none, lastVisibleText := none }

/-- A page whose only experience item is malformed (no title element). -/
def malformedExpPage : LinkedInPage :=
  { emptyPage with
     experienceSection := some [⟨none, some "ACME", none, none⟩] }

/-- A brand-new job with nothing scraped yet. -/
def freshCont : ScrapeContinuation :=
  { url := liUrl, platform := .linkedin, sessionId := "S",
    scrapedSections := [], lastScrapedIndex := 0, partialData := none,
    timestamp := 0, firstVisibleText := none, lastVisibleText := none }

/-- A page with one committed experience item followed by a malformed one. -/
def mixedExpPage : LinkedInPage :=
  { emptyPage with
     experienceSection :=
       some [⟨some "Dev", some "ACME", none, none⟩, ⟨none, none, none, none⟩] }

/-- A job whose scraped sections already satisfy the LinkedIn
completion check. -/
def completeCont : ScrapeContinuation :=
  { url := liUrl, platform := .linkedin, sessionId := "T",
    scrapedSections :=
      ["name", "headline", "about", "experience-complete", "education",
       "skills"],
    lastScrapedIndex := 0, partialData := some sampleProfile, timestamp := 0,
    firstVisibleText := some "f", lastVisibleText := some "l" }

/-- A pass environment in which nothing fails and no deadline is hit. -/
def okEnv : PassEnv :=
  { fail := none, firstLast := ("", ""), elapsed := 0, page := emptyPage,
    now := 5, freshToken := "X" }

/-- A continuation store holding the sample job under token `"T"`. -/
def contStore0 : ContStore := [("T", ⟨completeCont, 1000000⟩)]

/-- An empty governor/store state for the route handler. -/
def st0 : RouteState := ⟨[], [], none, []⟩

/-- A route environment in which the scrape wins the 8-second race,
during month `2025-01`. -/
def goodRouteEnv : RouteEnv :=
  { pass := okEnv, raceTimedOut := false, scrapeId := "J", now := 0,
    month := "2025-01" }

/-- A plain URL request for the sample LinkedIn target. -/
def sampleCall : RouteCall :=
  ⟨⟨"ip1", some liUrl, none⟩, goodRouteEnv⟩

/-! # Theorems -/

/-- C3, counterexample: `checkScrapingComplete` reports the LinkedIn job
complete for a section list that does *not* contain the required tag
`'experience'` as a member — membership is tested by `startsWith`, and
`'experience-0'` satisfies it.  This refutes the claimed
exact-membership iff at a concrete input. -/
theorem checkScrapingComplete_not_exact_membership :
    checkScrapingComplete .linkedin
        ["name", "headline", "about", "experience-0", "education", "skills"] = true ∧
      "experience" ∉
        ["name", "headline", "about", "experience-0", "education", "skills"] := by
  constructor
  · decide
  · decide

/-- C3 (amended): a job is reported complete iff every tag of the
category's required-part list is a *prefix* of some element of the job's
scraped-section list (`s.startsWith(section)`), not an exact member. -/
theorem checkScrapingComplete_iff_prefix (platform : PlatformType)
    (ss : List String) :
    checkScrapingComplete platform ss = true ↔
      ∀ sec ∈ requiredSections platform, ∃ s ∈ ss, strStartsWith s sec := by
  simp [checkScrapingComplete, List.all_eq_true, List.any_eq_true]

/-- C6: when the pinned dataset holds a record for a key, resolution
returns the pinned record even if a result-cache entry for the same key
exists: the pinned lookup is consulted first, then the cache, before any
live extraction is signalled. -/
theorem resolve_pinned_wins (pinned : String → Option LinkedInProfileData)
    (now : Nat) (key : String) (cache : CacheStore)
    (record : LinkedInProfileData)
    (hp : pinned key = some record)
    (_hc : (lookupStore cache key).isSome = true) :
    (resolveProfile pinned now key cache).1 = .resolved record := by
  simp [resolveProfile, hp]

/-- C6, witness: a concrete key with both a pinned record and a cache
entry resolves to the pinned record. -/
theorem resolve_pinned_wins_witness :
    ((fun k => if k == "https://www.linkedin.com/in/jane"
        then some sampleProfile else none)
      "https://www.linkedin.com/in/jane" = some sampleProfile) ∧
    (resolveProfile
        (fun k => if k == "https://www.linkedin.com/in/jane"
          then some sampleProfile else none)
        0 "https://www.linkedin.com/in/jane"
        [("https://www.linkedin.com/in/jane",
          ⟨{ sampleProfile with name := "Cached" }, 0, 1000⟩)]).1 =
      .resolved sampleProfile := by
  refine ⟨rfl, ?_⟩
  exact resolve_pinned_wins _ 0 _ _ _ rfl rfl

/-! ### C8: the rate window -/

lemma checkRateLimit_fresh (now : Nat) (key : String) :
    checkRateLimit now key [] =
      (⟨true, 9, now + 60000⟩, [(key, ⟨1, now + 60000⟩)]) := rfl

lemma checkRateLimit_step (now : Nat) (key : String) (c R : Nat)
    (hR : ¬ R < now) (hc : c + 1 ≤ 10) (h1 : 1 ≤ c) :
    checkRateLimit now key [(key, ⟨c, R⟩)] =
      (⟨true, 10 - (c + 1), R⟩, [(key, ⟨c + 1, R⟩)]) := by
  have hge : ¬ c ≥ RATE_LIMIT_MAX_REQUESTS := by
    simp only [RATE_LIMIT_MAX_REQUESTS]; omega
  simp [checkRateLimit, rateCleanup, lookupStore, setStore, hR, hge,
    RATE_LIMIT_MAX_REQUESTS]
  omega

lemma checkRateLimit_blocked (now : Nat) (key : String) (R : Nat)
    (hR : ¬ R < now) :
    checkRateLimit now key [(key, ⟨10, R⟩)] =
      (⟨false, 0, R⟩, [(key, ⟨10, R⟩)]) := by
  simp [checkRateLimit, rateCleanup, lookupStore, hR,
    RATE_LIMIT_MAX_REQUESTS]

/-- C8: starting from a fresh limiter, eleven calls for the same key all
made within the first call's 60-second window behave as specified: calls
1-10 are allowed with `remaining` counting 9, 8, ..., 0, and call 11 is
refused with `remaining = 0` and the window's reset time. -/
theorem rate_window_ten_then_blocked (key : String)
    (t t1 t2 t3 t4 t5 t6 t7 t8 t9 t10 : Nat)
    (h1 : t ≤ t1 ∧ t1 < t + 60000) (h2 : t ≤ t2 ∧ t2 < t + 60000)
    (h3 : t ≤ t3 ∧ t3 < t + 60000) (h4 : t ≤ t4 ∧ t4 < t + 60000)
    (h5 : t ≤ t5 ∧ t5 < t + 60000) (h6 : t ≤ t6 ∧ t6 < t + 60000)
    (h7 : t ≤ t7 ∧ t7 < t + 60000) (h8 : t ≤ t8 ∧ t8 < t + 60000)
    (h9 : t ≤ t9 ∧ t9 < t + 60000) (h10 : t ≤ t10 ∧ t10 < t + 60000) :
    (runRateCalls key [t, t1, t2, t3, t4, t5, t6, t7, t8, t9, t10] []).1 =
      [⟨true, 9, t + 60000⟩, ⟨true, 8, t + 60000⟩, ⟨true, 7, t + 60000⟩,
       ⟨true, 6, t + 60000⟩, ⟨true, 5, t + 60000⟩, ⟨true, 4, t + 60000⟩,
       ⟨true, 3, t + 60000⟩, ⟨true, 2, t + 60000⟩, ⟨true, 1, t + 60000⟩,
       ⟨true, 0, t + 60000⟩, ⟨false, 0, t + 60000⟩] := by
  have e0 := checkRateLimit_fresh t key
  have e1 := checkRateLimit_step t1 key 1 (t + 60000) (by omega) (by omega) (by omega)
  have e2 := checkRateLimit_step t2 key 2 (t + 60000) (by omega) (by omega) (by omega)
  have e3 := checkRateLimit_step t3 key 3 (t + 60000) (by omega) (by omega) (by omega)
  have e4 := checkRateLimit_step t4 key 4 (t + 60000) (by omega) (by omega) (by omega)
  have e5 := checkRateLimit_step t5 key 5 (t + 60000) (by omega) (by omega) (by omega)
  have e6 := checkRateLimit_step t6 key 6 (t + 60000) (by omega) (by omega) (by omega)
  have e7 := checkRateLimit_step t7 key 7 (t + 60000) (by omega) (by omega) (by omega)
  have e8 := checkRateLimit_step t8 key 8 (t + 60000) (by omega) (by omega) (by omega)
  have e9 := checkRateLimit_step t9 key 9 (t + 60000) (by omega) (by omega) (by omega)
  have e10 := checkRateLimit_blocked t10 key (t + 60000) (by omega)
  simp only [runRateCalls, e0, e1, e2, e3, e4, e5, e6, e7, e8, e9, e10]

/-- C8, witness: eleven immediate calls at time 0. -/
theorem rate_window_ten_then_blocked_witness :
    (runRateCalls "k" [0, 0, 0, 0, 0, 0, 0, 0, 0, 0, 0] []).1 =
      [⟨true, 9, 60000⟩, ⟨true, 8, 60000⟩, ⟨true, 7, 60000⟩,
       ⟨true, 6, 60000⟩, ⟨true, 5, 60000⟩, ⟨true, 4, 60000⟩,
       ⟨true, 3, 60000⟩, ⟨true, 2, 60000⟩, ⟨true, 1, 60000⟩,
       ⟨true, 0, 60000⟩, ⟨false, 0, 60000⟩] := by
  have h : (0 : Nat) ≤ 0 ∧ (0 : Nat) < 0 + 60000 := by omega
  simpa using rate_window_ten_then_blocked "k" 0 0 0 0 0 0 0 0 0 0 0
    h h h h h h h h h h

/-! ### C10: the concurrency ceiling -/

lemma length_setStore_le {α : Type} (s : List (String × α)) (k : String)
    (v : α) : (setStore s k v).length ≤ s.length + 1 := by
  induction s with
  | nil => simp [setStore]
  | cons p rest ih =>
      simp only [setStore]
      split
      · simp
      · simpa using Nat.succ_le_succ ih

lemma cleanupStale_length_le (now : Nat) (s : ConcStore) :
    (cleanupStaleEntries now s).length ≤ s.length :=
  List.length_filter_le _ _

lemma cleanupStale_idem (now : Nat) (s : ConcStore) :
    cleanupStaleEntries now (cleanupStaleEntries now s) =
      cleanupStaleEntries now s := by
  simp [cleanupStaleEntries, List.filter_filter]

lemma canStartScrape_snd (now : Nat) (s : ConcStore) :
    (canStartScrape now s).2 = cleanupStaleEntries now s := by
  simp only [canStartScrape]
  split <;> rfl

lemma canStartScrape_allowed_iff (now : Nat) (s : ConcStore) :
    (canStartScrape now s).1.allowed = true ↔
      (cleanupStaleEntries now s).length < 4 := by
  simp only [canStartScrape, MAX_CONCURRENT_SCRAPES]
  split
  · rename_i h
    simp only [ge_iff_le] at h
    constructor
    · intro hc
      exact absurd hc (by simp)
    · omega
  · rename_i h
    simp only [ge_iff_le] at h
    constructor
    · omega
    · intro
      rfl

lemma concStep_bound (s : ConcStore) (op : ConcOp) (h : s.length ≤ 4) :
    (concStep s op).length ≤ 4 := by
  cases op with
  | canStart now =>
      simp only [concStep, canStartScrape_snd]
      exact le_trans (cleanupStale_length_le now s) h
  | start now id url =>
      simp only [concStep, startScrape]
      split
      · exact le_trans (cleanupStale_length_le now s) h
      · rename_i hb
        have hal : (canStartScrape now (cleanupStaleEntries now s)).1.allowed = true := by
          cases hc : (canStartScrape now (cleanupStaleEntries now s)).1.allowed with
          | true => rfl
          | false => simp [hc] at hb
        rw [canStartScrape_allowed_iff, cleanupStale_idem] at hal
        calc (setStore (cleanupStaleEntries now s) id ⟨id, url, now⟩).length
            ≤ (cleanupStaleEntries now s).length + 1 := length_setStore_le _ _ _
          _ ≤ 4 := by omega
  | finish now id =>
      simp only [concStep, finishScrape]
      calc (cleanupStaleEntries now (deleteStore s id)).length
          ≤ (deleteStore s id).length := cleanupStale_length_le _ _
        _ ≤ s.length := List.length_filter_le _ _
        _ ≤ 4 := h

lemma foldl_concStep_bound (ops : List ConcOp) (s : ConcStore)
    (h : s.length ≤ 4) : (ops.foldl concStep s).length ≤ 4 := by
  induction ops generalizing s with
  | nil => simpa using h
  | cons op rest ih =>
      simpa using ih (concStep s op) (concStep_bound s op h)

/-- C10: the number of active scrape slots never exceeds 4 after any
sequence of limiter operations starting from a state within the cap, and
a `startScrape` issued while 4 non-stale slots are active throws and
leaves the slot map unchanged except for the removal of stale entries. -/
theorem concurrency_limit_invariant (ops : List ConcOp) (s : ConcStore)
    (now : Nat) (id : String) (u : Url) :
    (s.length ≤ 4 → (ops.foldl concStep s).length ≤ 4) ∧
      ((cleanupStaleEntries now s).length = 4 →
        startScrape now id u s =
          (.error "Concurrent scrape limit reached.",
           cleanupStaleEntries now s)) := by
  constructor
  · exact foldl_concStep_bound ops s
  · intro hfull
    have hblocked : (canStartScrape now (cleanupStaleEntries now s)).1.allowed = false := by
      cases hc : (canStartScrape now (cleanupStaleEntries now s)).1.allowed with
      | false => rfl
      | true =>
          rw [canStartScrape_allowed_iff, cleanupStale_idem] at hc
          omega
    simp [startScrape, hblocked]

/-- C10, witness: with four fresh slots active, a fifth `startScrape`
throws and the map is unchanged; the fold bound holds concretely. -/
theorem concurrency_limit_invariant_witness :
    (([ConcOp.start 0 "e" liUrl].foldl concStep
        [("a", ⟨"a", liUrl, 0⟩), ("b", ⟨"b", liUrl, 0⟩),
         ("c", ⟨"c", liUrl, 0⟩), ("d", ⟨"d", liUrl, 0⟩)]).length ≤ 4) ∧
      startScrape 0 "e" liUrl
          [("a", ⟨"a", liUrl, 0⟩), ("b", ⟨"b", liUrl, 0⟩),
           ("c", ⟨"c", liUrl, 0⟩), ("d", ⟨"d", liUrl, 0⟩)] =
        (.error "Concurrent scrape limit reached.",
         cleanupStaleEntries 0
           [("a", ⟨"a", liUrl, 0⟩), ("b", ⟨"b", liUrl, 0⟩),
            ("c", ⟨"c", liUrl, 0⟩), ("d", ⟨"d", liUrl, 0⟩)]) := by
  refine ⟨?_, ?_⟩
  · exact (concurrency_limit_invariant [ConcOp.start 0 "e" liUrl] _ 0 "e" liUrl).1
      (by decide)
  · exact (concurrency_limit_invariant [] _ 0 "e" liUrl).2 (by decide)

/-! ### C1: monotonicity of `scrapedSections` and `lastScrapedIndex` -/

lemma contMono_refl (a : ScrapeContinuation) : contMono a a :=
  ⟨⟨[], List.append_nil _⟩, le_refl _⟩

lemma contMono_trans {a b c : ScrapeContinuation} (h1 : contMono a b)
    (h2 : contMono b c) : contMono a c :=
  ⟨h1.1.trans h2.1, le_trans h1.2 h2.2⟩

lemma contMono_append (c : ScrapeContinuation) (l : List String) :
    contMono c { c with scrapedSections := c.scrapedSections ++ l } :=
  ⟨⟨l, rfl⟩, le_refl _⟩

lemma stepName_mono (page : LinkedInPage)
    (dc : LinkedInProfileData × ScrapeContinuation) :
    contMono dc.2 (stepName page dc).2 := by
  unfold stepName
  split
  · exact contMono_refl _
  · cases page.nameEl with
    | some t => exact contMono_append _ _
    | none => exact contMono_refl _

lemma stepHeadline_mono (page : LinkedInPage)
    (dc : LinkedInProfileData × ScrapeContinuation) :
    contMono dc.2 (stepHeadline page dc).2 := by
  unfold stepHeadline
  split
  · exact contMono_refl _
  · cases page.headlineEl with
    | some t => exact contMono_append _ _
    | none => exact contMono_refl _

lemma stepLocation_mono (page : LinkedInPage)
    (dc : LinkedInProfileData × ScrapeContinuation) :
    contMono dc.2 (stepLocation page dc).2 := by
  unfold stepLocation
  split
  · exact contMono_refl _
  · cases page.locationEl with
    | some t => exact contMono_append _ _
    | none => exact contMono_refl _

lemma stepAbout_mono (page : LinkedInPage)
    (dc : LinkedInProfileData × ScrapeContinuation) :
    contMono dc.2 (stepAbout page dc).2 := by
  unfold stepAbout
  split
  · exact contMono_refl _
  · cases page.aboutEl with
    | some t => exact contMono_append _ _
    | none => exact contMono_refl _

lemma expLoop_mono (items : List ExpElem) (i : Nat)
    (dc : LinkedInProfileData × ScrapeContinuation)
    (h : dc.2.lastScrapedIndex ≤ i) :
    contMono dc.2 (expLoop items i dc).2 := by
  induction items generalizing i dc with
  | nil => exact contMono_refl _
  | cons it rest ih =>
      simp only [expLoop]
      split
      · exact contMono_trans
          ⟨⟨["experience-" ++ toString i], rfl⟩, le_trans h (Nat.le_succ i)⟩
          (ih (i + 1)
            ({ dc.1 with experience := dc.1.experience ++ [mkExperience it] },
             { dc.2 with
                scrapedSections :=
                  dc.2.scrapedSections ++ ["experience-" ++ toString i],
                lastScrapedIndex := i + 1 })
            (le_refl _))
      · exact ih (i + 1) dc (le_trans h (Nat.le_succ i))

lemma stepExperience_mono (page : LinkedInPage)
    (dc : LinkedInProfileData × ScrapeContinuation) :
    contMono dc.2 (stepExperience page dc).2 := by
  unfold stepExperience
  split
  · exact contMono_refl _
  · cases page.experienceSection with
    | none => exact contMono_refl _
    | some items =>
        dsimp only
        split
        · exact contMono_trans
            (expLoop_mono _ dc.2.lastScrapedIndex dc (le_refl _))
            (contMono_append _ _)
        · exact expLoop_mono _ dc.2.lastScrapedIndex dc (le_refl _)

lemma stepEducation_mono (page : LinkedInPage)
    (dc : LinkedInProfileData × ScrapeContinuation) :
    contMono dc.2 (stepEducation page dc).2 := by
  unfold stepEducation
  split
  · exact contMono_refl _
  · cases page.educationSection with
    | some items => exact contMono_append _ _
    | none => exact contMono_refl _

lemma stepSkills_mono (page : LinkedInPage)
    (dc : LinkedInProfileData × ScrapeContinuation) :
    contMono dc.2 (stepSkills page dc).2 := by
  unfold stepSkills
  split
  · exact contMono_refl _
  · cases page.skillsSection with
    | some els => exact contMono_append _ _
    | none => exact contMono_refl _

lemma stepProfileImage_mono (page : LinkedInPage)
    (dc : LinkedInProfileData × ScrapeContinuation) :
    contMono dc.2 (stepProfileImage page dc).2 := by
  unfold stepProfileImage
  split
  · exact contMono_refl _
  · cases page.profileImgEl with
    | some src => exact contMono_append _ _
    | none => exact contMono_refl _

lemma contMono_of_eq {a b : ScrapeContinuation}
    (h1 : b.scrapedSections = a.scrapedSections)
    (h2 : a.lastScrapedIndex = b.lastScrapedIndex) : contMono a b := by
  refine ⟨?_, le_of_eq h2⟩
  rw [h1]

lemma extract_mono (page : LinkedInPage) (url : String)
    (cont : ScrapeContinuation) :
    contMono cont (extractLinkedInProfileProgressive page url cont).2 := by
  unfold extractLinkedInProfileProgressive
  exact contMono_trans (contMono_trans (contMono_trans (contMono_trans
    (contMono_trans (contMono_trans (contMono_trans
      (stepName_mono page (initData url cont.partialData, cont))
      (stepHeadline_mono page _)) (stepLocation_mono page _))
      (stepAbout_mono page _)) (stepExperience_mono page _))
      (stepEducation_mono page _)) (stepSkills_mono page _))
    (stepProfileImage_mono page _)

lemma catchPath_cont (state : ScrapeContinuation) (fvt lvt msg : String)
    (now : Nat) (store : ContStore) (r : ProgressiveScrapeResult)
    (h : (catchPath state fvt lvt msg now store).1 = .ok r) :
    r.continuation = some { state with timestamp := now } := by
  unfold catchPath at h
  split at h
  · dsimp only at h
    injection h with h
    subst h
    rfl
  · dsimp only at h
    exact PassOutcome.noConfusion h

lemma applyFirstLast_state (env : PassEnv) (s : ScrapeContinuation) :
    ((applyFirstLast env s).2.2).scrapedSections = s.scrapedSections ∧
      ((applyFirstLast env s).2.2).lastScrapedIndex = s.lastScrapedIndex ∧
      ((applyFirstLast env s).2.2).partialData = s.partialData ∧
      ((applyFirstLast env s).2.2).sessionId = s.sessionId := by
  unfold applyFirstLast
  split <;> exact ⟨rfl, rfl, rfl, rfl⟩

lemma applyFirstLast_fields {env : PassEnv} {s : ScrapeContinuation}
    {fvt lvt : String} {st : ScrapeContinuation}
    (heq : applyFirstLast env s = (fvt, lvt, st)) :
    st.scrapedSections = s.scrapedSections ∧
      st.lastScrapedIndex = s.lastScrapedIndex ∧
      st.partialData = s.partialData ∧ st.sessionId = s.sessionId := by
  have hs := applyFirstLast_state env s
  rw [heq] at hs
  exact hs

lemma linkedinArm_cont_mono (url : Url) (state1 : ScrapeContinuation)
    (fvt lvt : String) (env : PassEnv) (store : ContStore)
    (r : ProgressiveScrapeResult)
    (h : (linkedinArm url state1 fvt lvt env store).1 = .ok r)
    (c' : ScrapeContinuation) (hc : r.continuation = some c') :
    contMono state1 c' := by
  unfold linkedinArm at h
  split at h
  · rw [catchPath_cont _ _ _ _ _ _ _ h] at hc
    injection hc with hc
    subst hc
    exact contMono_of_eq rfl rfl
  · split at h
    rename_i x pd s2 heq
    split at h
    · dsimp only at h
      injection h with h
      subst h
      dsimp only at hc
      exact Option.noConfusion hc
    · dsimp only at h
      injection h with h
      subst h
      dsimp only at hc
      injection hc with hc
      subst hc
      have hm := extract_mono env.page url.raw state1
      rw [heq] at hm
      exact contMono_trans hm (contMono_of_eq rfl rfl)

lemma runPass_cont_mono (url : Url) (c : ScrapeContinuation) (env : PassEnv)
    (store : ContStore) (r : ProgressiveScrapeResult)
    (h : (runPass url (some c) env store).1 = .ok r)
    (c' : ScrapeContinuation) (hc : r.continuation = some c') :
    contMono c c' := by
  unfold runPass at h
  rw [Option.getD_some] at h
  split at h
  · dsimp only at h
    exact PassOutcome.noConfusion h
  · split at h
    · -- hard failure before navigation
      rw [catchPath_cont _ _ _ _ _ _ _ h] at hc
      injection hc with hc
      subst hc
      exact contMono_of_eq rfl rfl
    · -- navigation succeeded
      split at h
      split at h
      · -- deadline reached
        rename_i heq hdl
        unfold deadlineReturn at h
        try dsimp only at h
        injection h with h
        subst h
        try dsimp only at hc
        injection hc with hc
        subst hc
        have hs := applyFirstLast_fields heq
        exact contMono_of_eq hs.1 hs.2.1.symm
      · split at h
        · -- linkedin platform arm
          rename_i heq hdl xp hplat
          have hs := applyFirstLast_fields heq
          exact contMono_trans (contMono_of_eq hs.1 hs.2.1.symm)
            (linkedinArm_cont_mono _ _ _ _ _ _ _ h _ hc)
        · dsimp only at h
          exact PassOutcome.noConfusion h
        · dsimp only at h
          exact PassOutcome.noConfusion h

lemma passNext_mono (env : PassEnv) (url : Url) (c c' : ScrapeContinuation)
    (h : passNext env url c = some c') : contMono c c' := by
  unfold passNext at h
  split at h
  · rename_i r hr
    exact runPass_cont_mono url c env [] r hr c' h
  · exact Option.noConfusion h

lemma passChain_mono (url : Url) (envs : List PassEnv)
    (c c' : ScrapeContinuation) (h : passChain url envs c = some c') :
    contMono c c' := by
  induction envs generalizing c with
  | nil =>
      unfold passChain at h
      injection h with h
      subst h
      exact contMono_refl _
  | cons e rest ih =>
      unfold passChain at h
      split at h
      · exact Option.noConfusion h
      · rename_i c2 hstep
        exact contMono_trans (passNext_mono e url c c2 hstep) (ih c2 h)

/-- C1: across any sequence of resumption passes threaded through the
continuations they return, the set of scraped sections never shrinks and
the cursor `lastScrapedIndex` never decreases. -/
theorem progressive_scrape_monotonic (url : Url) (envs : List PassEnv)
    (c c' : ScrapeContinuation) (h : passChain url envs c = some c') :
    (∀ s ∈ c.scrapedSections, s ∈ c'.scrapedSections) ∧
      c.lastScrapedIndex ≤ c'.lastScrapedIndex := by
  obtain ⟨⟨t, ht⟩, hle⟩ := passChain_mono url envs c c' h
  refine ⟨?_, hle⟩
  intro s hs
  rw [← ht]
  exact List.mem_append_left t hs

/-- C1, witness: a concrete two-pass chain in which the first pass fails
over to the resumable outcome; the scraped sections and cursor carry
over undiminished. -/
theorem progressive_scrape_monotonic_witness :
    passChain liUrl [failEnv] sampleCont =
        some { sampleCont with timestamp := 5 } ∧
      ((∀ s ∈ sampleCont.scrapedSections,
          s ∈ ({ sampleCont with timestamp := 5 } :
            ScrapeContinuation).scrapedSections) ∧
        sampleCont.lastScrapedIndex ≤
          ({ sampleCont with timestamp := 5 } :
            ScrapeContinuation).lastScrapedIndex) := by
  refine ⟨by decide, ?_⟩
  exact progressive_scrape_monotonic liUrl [failEnv] sampleCont
    { sampleCont with timestamp := 5 } (by decide)

/-! ### C2: cursor advancement over the experience list -/

lemma contains_append_single (l : List String) (x y : String) :
    (l ++ [x]).contains y = (l.contains y || y == x) := by
  induction l with
  | nil =>
      simp only [List.nil_append, List.contains, List.elem]
      cases y == x <;> rfl
  | cons a l ih =>
      simp only [List.cons_append, List.contains, List.elem] at *
      cases y == a with
      | true => simp
      | false => simpa using ih

lemma findFirstIdx_append_single {α : Type} (p : α → Bool) (l : List α)
    (x : α) :
    findFirstIdx p (l ++ [x]) =
      match findFirstIdx p l with
      | some k => some k
      | none => if p x then some l.length else none := by
  induction l with
  | nil => cases hp : p x <;> simp [findFirstIdx, hp]
  | cons a l ih =>
      cases hp : p a with
      | true => simp [findFirstIdx, hp]
      | false =>
          simp only [List.cons_append, findFirstIdx, hp, Bool.false_eq_true,
            if_false]
          cases hfl : findFirstIdx p l with
          | some k => simp [ih, hfl]
          | none =>
              cases hx : p x <;> simp [ih, hfl, hx, List.length_cons]

lemma findFirstIdx_lt_length {α : Type} (p : α → Bool) (l : List α) (k : Nat)
    (h : findFirstIdx p l = some k) : k < l.length := by
  induction l generalizing k with
  | nil => exact Option.noConfusion h
  | cons a l ih =>
      unfold findFirstIdx at h
      split at h
      · injection h with h
        simp only [List.length_cons]
        omega
      · cases hfl : findFirstIdx p l with
        | none => rw [hfl] at h; exact Option.noConfusion h
        | some j =>
            rw [hfl] at h
            simp only [Option.map_some'] at h
            injection h with h
            have := ih j hfl
            simp only [List.length_cons]
            omega

lemma expLoop_experience (items : List ExpElem) (i : Nat)
    (dc : LinkedInProfileData × ScrapeContinuation) :
    (expLoop items i dc).1.experience =
      dc.1.experience ++ items.filterMap commitFn := by
  induction items generalizing i dc with
  | nil => simp [expLoop]
  | cons it rest ih =>
      simp only [expLoop]
      cases hcom : isCommitted it with
      | true => simp [hcom, ih, commitFn, List.append_assoc]
      | false => simp [hcom, ih, commitFn]

lemma findFirstIdx_append_single_none {α : Type} (p : α → Bool)
    (l : List α) (x : α)
    (h : findFirstIdx p (l ++ [x]) = none) :
    findFirstIdx p l = none ∧ p x = false := by
  rw [findFirstIdx_append_single] at h
  cases hfl : findFirstIdx p l with
  | some k => rw [hfl] at h; exact Option.noConfusion h
  | none =>
      rw [hfl] at h
      cases hx : p x with
      | true => rw [hx] at h; simp at h
      | false => exact ⟨rfl, rfl⟩

lemma expLoop_idx_none (items : List ExpElem) (i : Nat)
    (dc : LinkedInProfileData × ScrapeContinuation)
    (hfl : findFirstIdx isCommitted items.reverse = none) :
    (expLoop items i dc).2.lastScrapedIndex = dc.2.lastScrapedIndex := by
  induction items generalizing i dc with
  | nil => rfl
  | cons it rest ih =>
      rw [List.reverse_cons] at hfl
      obtain ⟨hrest, hit⟩ := findFirstIdx_append_single_none _ _ _ hfl
      simp only [expLoop, isCommitted] at hit ⊢
      rw [hit]
      simp only [Bool.false_eq_true, if_false]
      exact ih (i + 1) dc hrest

lemma expLoop_idx_some (items : List ExpElem) (i : Nat)
    (dc : LinkedInProfileData × ScrapeContinuation) (k : Nat)
    (hfl : findFirstIdx isCommitted items.reverse = some k) :
    (expLoop items i dc).2.lastScrapedIndex = i + (items.length - k) := by
  induction items generalizing i dc k with
  | nil => exact Option.noConfusion hfl
  | cons it rest ih =>
      rw [List.reverse_cons, findFirstIdx_append_single] at hfl
      cases hrest : findFirstIdx isCommitted rest.reverse with
      | some j =>
          rw [hrest] at hfl
          injection hfl with hfl
          subst hfl
          have hk := findFirstIdx_lt_length _ _ _ hrest
          rw [List.length_reverse] at hk
          have hstep : (expLoop (it :: rest) i dc).2.lastScrapedIndex =
              (expLoop rest (i + 1)
                (if isCommitted it then
                  ({ dc.1 with experience := dc.1.experience ++ [mkExperience it] },
                   { dc.2 with
                      scrapedSections :=
                        dc.2.scrapedSections ++ ["experience-" ++ toString i],
                      lastScrapedIndex := i + 1 })
                 else dc)).2.lastScrapedIndex := rfl
          rw [hstep, ih _ _ _ hrest]
          simp only [List.length_cons]
          omega
      | none =>
          rw [hrest] at hfl
          cases hit : isCommitted it with
          | false => rw [hit] at hfl; simp at hfl
          | true =>
              rw [hit] at hfl
              simp only [if_true, List.length_reverse] at hfl
              injection hfl with hfl
              subst hfl
              have hstep : expLoop (it :: rest) i dc =
                  expLoop rest (i + 1)
                    ({ dc.1 with experience := dc.1.experience ++ [mkExperience it] },
                     { dc.2 with
                        scrapedSections :=
                          dc.2.scrapedSections ++ ["experience-" ++ toString i],
                        lastScrapedIndex := i + 1 }) := by
                simp [expLoop, hit]
              rw [hstep, expLoop_idx_none rest (i + 1) _ hrest]
              simp only [List.length_cons]
              omega

lemma contains_append_ne (l : List String) (x y : String)
    (h : (y == x) = false) : (l ++ [x]).contains y = l.contains y := by
  rw [contains_append_single, h, Bool.or_false]

lemma stepName_exp (page : LinkedInPage)
    (dc : LinkedInProfileData × ScrapeContinuation) :
    (stepName page dc).1.experience = dc.1.experience ∧
      (stepName page dc).2.lastScrapedIndex = dc.2.lastScrapedIndex ∧
      (stepName page dc).2.scrapedSections.contains "experience-complete" =
        dc.2.scrapedSections.contains "experience-complete" := by
  unfold stepName
  split
  · exact ⟨rfl, rfl, rfl⟩
  · cases page.nameEl with
    | some t => exact ⟨rfl, rfl, contains_append_ne _ _ _ (by decide)⟩
    | none => exact ⟨rfl, rfl, rfl⟩

lemma stepHeadline_exp (page : LinkedInPage)
    (dc : LinkedInProfileData × ScrapeContinuation) :
    (stepHeadline page dc).1.experience = dc.1.experience ∧
      (stepHeadline page dc).2.lastScrapedIndex = dc.2.lastScrapedIndex ∧
      (stepHeadline page dc).2.scrapedSections.contains "experience-complete" =
        dc.2.scrapedSections.contains "experience-complete" := by
  unfold stepHeadline
  split
  · exact ⟨rfl, rfl, rfl⟩
  · cases page.headlineEl with
    | some t => exact ⟨rfl, rfl, contains_append_ne _ _ _ (by decide)⟩
    | none => exact ⟨rfl, rfl, rfl⟩

lemma stepLocation_exp (page : LinkedInPage)
    (dc : LinkedInProfileData × ScrapeContinuation) :
    (stepLocation page dc).1.experience = dc.1.experience ∧
      (stepLocation page dc).2.lastScrapedIndex = dc.2.lastScrapedIndex ∧
      (stepLocation page dc).2.scrapedSections.contains "experience-complete" =
        dc.2.scrapedSections.contains "experience-complete" := by
  unfold stepLocation
  split
  · exact ⟨rfl, rfl, rfl⟩
  · cases page.locationEl with
    | some t => exact ⟨rfl, rfl, contains_append_ne _ _ _ (by decide)⟩
    | none => exact ⟨rfl, rfl, rfl⟩

lemma stepAbout_exp (page : LinkedInPage)
    (dc : LinkedInProfileData × ScrapeContinuation) :
    (stepAbout page dc).1.experience = dc.1.experience ∧
      (stepAbout page dc).2.lastScrapedIndex = dc.2.lastScrapedIndex ∧
      (stepAbout page dc).2.scrapedSections.contains "experience-complete" =
        dc.2.scrapedSections.contains "experience-complete" := by
  unfold stepAbout
  split
  · exact ⟨rfl, rfl, rfl⟩
  · cases page.aboutEl with
    | some t => exact ⟨rfl, rfl, contains_append_ne _ _ _ (by decide)⟩
    | none => exact ⟨rfl, rfl, rfl⟩

lemma stepEducation_exp (page : LinkedInPage)
    (dc : LinkedInProfileData × ScrapeContinuation) :
    (stepEducation page dc).1.experience = dc.1.experience ∧
      (stepEducation page dc).2.lastScrapedIndex = dc.2.lastScrapedIndex := by
  unfold stepEducation
  split
  · exact ⟨rfl, rfl⟩
  · cases page.educationSection with
    | some items => exact ⟨rfl, rfl⟩
    | none => exact ⟨rfl, rfl⟩

lemma stepSkills_exp (page : LinkedInPage)
    (dc : LinkedInProfileData × ScrapeContinuation) :
    (stepSkills page dc).1.experience = dc.1.experience ∧
      (stepSkills page dc).2.lastScrapedIndex = dc.2.lastScrapedIndex := by
  unfold stepSkills
  split
  · exact ⟨rfl, rfl⟩
  · cases page.skillsSection with
    | some els => exact ⟨rfl, rfl⟩
    | none => exact ⟨rfl, rfl⟩

lemma stepProfileImage_exp (page : LinkedInPage)
    (dc : LinkedInProfileData × ScrapeContinuation) :
    (stepProfileImage page dc).1.experience = dc.1.experience ∧
      (stepProfileImage page dc).2.lastScrapedIndex = dc.2.lastScrapedIndex := by
  unfold stepProfileImage
  split
  · exact ⟨rfl, rfl⟩
  · cases page.profileImgEl with
    | some src => exact ⟨rfl, rfl⟩
    | none => exact ⟨rfl, rfl⟩

lemma initData_experience (url : String)
    (pd : Option LinkedInProfileData) :
    (initData url pd).experience =
      (pd.map fun d => d.experience).getD [] := by
  cases pd <;> rfl

lemma stepExperience_char (page : LinkedInPage)
    (dc : LinkedInProfileData × ScrapeContinuation) (items : List ExpElem)
    (hsec : page.experienceSection = some items)
    (hne : dc.2.scrapedSections.contains "experience-complete" = false) :
    (stepExperience page dc).2.lastScrapedIndex =
        cursorAfter (items.drop dc.2.lastScrapedIndex)
          dc.2.lastScrapedIndex ∧
      (stepExperience page dc).1.experience =
        dc.1.experience ++
          (items.drop dc.2.lastScrapedIndex).filterMap commitFn := by
  unfold stepExperience
  rw [hne, hsec]
  simp only [Bool.false_eq_true, if_false]
  split
  · constructor
    · cases hf : findFirstIdx isCommitted
          (items.drop dc.2.lastScrapedIndex).reverse with
      | some k => simp [cursorAfter, hf, expLoop_idx_some _ _ _ _ hf]
      | none => simp [cursorAfter, hf, expLoop_idx_none _ _ _ hf]
    · simpa using expLoop_experience _ _ _
  · constructor
    · cases hf : findFirstIdx isCommitted
          (items.drop dc.2.lastScrapedIndex).reverse with
      | some k => simp [cursorAfter, hf, expLoop_idx_some _ _ _ _ hf]
      | none => simp [cursorAfter, hf, expLoop_idx_none _ _ _ hf]
    · exact expLoop_experience _ _ _

/-- C2, counterexample: a pass over a single *malformed* experience item
(no title element) does not advance the cursor past it — it stays at 0 —
and the part is not marked complete, so a later pass re-attempts the same
index.  This refutes the claim that the cursor advances past every
attempted item including malformed ones. -/
theorem malformed_item_does_not_advance_cursor :
    (extractLinkedInProfileProgressive malformedExpPage
        "https://www.linkedin.com/in/jane" freshCont).2.lastScrapedIndex = 0 ∧
      (extractLinkedInProfileProgressive malformedExpPage
          "https://www.linkedin.com/in/jane"
          freshCont).2.scrapedSections.contains "experience-complete" =
        false := by
  constructor
  · decide
  · decide

/-- C2 (amended): during one extraction pass, experience items are
processed strictly in source order starting at the persisted cursor (the
committed records are appended in source order, and items below the
cursor are not touched), and the cursor advances past an item exactly
when the item was successfully committed: it ends one past the last
committed item, or stays at its starting value when nothing was
committed — a trailing malformed item does not advance it and is
re-attempted on a later pass. -/
theorem experience_order_and_cursor (page : LinkedInPage) (url : String)
    (cont : ScrapeContinuation) (items : List ExpElem)
    (hsec : page.experienceSection = some items)
    (hne : cont.scrapedSections.contains "experience-complete" = false) :
    (extractLinkedInProfileProgressive page url cont).2.lastScrapedIndex =
        cursorAfter (items.drop cont.lastScrapedIndex)
          cont.lastScrapedIndex ∧
      (extractLinkedInProfileProgressive page url cont).1.experience =
        (cont.partialData.map fun d => d.experience).getD [] ++
          (items.drop cont.lastScrapedIndex).filterMap commitFn := by
  unfold extractLinkedInProfileProgressive
  set dc0 := (initData url cont.partialData, cont) with hdc0
  set dc1 := stepName page dc0 with hdc1
  set dc2 := stepHeadline page dc1 with hdc2
  set dc3 := stepLocation page dc2 with hdc3
  set dc4 := stepAbout page dc3 with hdc4
  set dc5 := stepExperience page dc4 with hdc5
  set dc6 := stepEducation page dc5 with hdc6
  set dc7 := stepSkills page dc6 with hdc7
  have p1 := stepName_exp page dc0
  have p2 := stepHeadline_exp page dc1
  have p3 := stepLocation_exp page dc2
  have p4 := stepAbout_exp page dc3
  rw [← hdc1] at p1
  rw [← hdc2] at p2
  rw [← hdc3] at p3
  rw [← hdc4] at p4
  have hidx4 : dc4.2.lastScrapedIndex = cont.lastScrapedIndex := by
    rw [p4.2.1, p3.2.1, p2.2.1, p1.2.1]
  have hexp4 : dc4.1.experience = dc0.1.experience := by
    rw [p4.1, p3.1, p2.1, p1.1]
  have hne4 : dc4.2.scrapedSections.contains "experience-complete" = false := by
    rw [p4.2.2, p3.2.2, p2.2.2, p1.2.2]
    exact hne
  have hchar := stepExperience_char page dc4 items hsec hne4
  rw [← hdc5] at hchar
  have p6 := stepEducation_exp page dc5
  have p7 := stepSkills_exp page dc6
  have p8 := stepProfileImage_exp page dc7
  rw [← hdc6] at p6
  rw [← hdc7] at p7
  constructor
  · rw [p8.2, p7.2, p6.2, hchar.1, hidx4]
  · rw [p8.1, p7.1, p6.1, hchar.2, hexp4, hidx4, hdc0]
    rw [initData_experience]

/-- C2 (amended), witness: one committed item followed by a trailing
malformed one; the cursor ends one past the committed item (at 1), and
exactly the committed record is appended. -/
theorem experience_order_and_cursor_witness :
    (extractLinkedInProfileProgressive mixedExpPage
        "https://www.linkedin.com/in/jane" freshCont).2.lastScrapedIndex =
        cursorAfter
          ((([⟨some "Dev", some "ACME", none, none⟩,
              ⟨none, none, none, none⟩] : List ExpElem)).drop
            freshCont.lastScrapedIndex)
          freshCont.lastScrapedIndex ∧
      (extractLinkedInProfileProgressive mixedExpPage
          "https://www.linkedin.com/in/jane" freshCont).1.experience =
        (freshCont.partialData.map fun d => d.experience).getD [] ++
          ((([⟨some "Dev", some "ACME", none, none⟩,
              ⟨none, none, none, none⟩] : List ExpElem)).drop
            freshCont.lastScrapedIndex).filterMap commitFn := by
  exact experience_order_and_cursor mixedExpPage
    "https://www.linkedin.com/in/jane" freshCont
    [⟨some "Dev", some "ACME", none, none⟩, ⟨none, none, none, none⟩]
    (by decide) (by decide)

/-! ### C4: the continuation store after a completing pass -/

lemma catchPath_pair_incomplete (state : ScrapeContinuation)
    (fvt lvt msg : String) (now : Nat) (store : ContStore)
    (r : ProgressiveScrapeResult) (s' : ContStore)
    (h : catchPath state fvt lvt msg now store = (.ok r, s')) :
    r.isComplete = false := by
  unfold catchPath at h
  split at h
  · injection h with h1 h2
    injection h1 with h1
    rw [← h1]
  · injection h with h1 h2
    exact PassOutcome.noConfusion h1

set_option maxHeartbeats 1600000 in
lemma linkedinArm_complete_store (url : Url) (state1 : ScrapeContinuation)
    (fvt lvt : String) (env : PassEnv) (store : ContStore)
    (r : ProgressiveScrapeResult) (s' : ContStore)
    (h : linkedinArm url state1 fvt lvt env store = (.ok r, s'))
    (hcomp : r.isComplete = true) : s' = store := by
  unfold linkedinArm at h
  split at h
  · rw [catchPath_pair_incomplete _ _ _ _ _ _ _ _ h] at hcomp
    exact Bool.noConfusion hcomp
  · rcases hex : extractLinkedInProfileProgressive env.page url.raw state1
      with ⟨pd, s2⟩
    rw [hex] at h
    dsimp only at h
    split at h
    · injection h with h1 h2
      exact h2.symm
    · injection h with h1 h2
      rw [PassOutcome.ok.injEq] at h1
      rw [← h1] at hcomp
      exact Bool.noConfusion hcomp

/-- C4 (amended): a pass that finishes the job (`complete: true`) leaves
the Continuation Store exactly as it was — the job is *not* deleted
(`deleteContinuation` is never invoked anywhere); the token keeps
resolving until its 5-minute TTL expires. -/
theorem complete_pass_store_unchanged (url : Url)
    (contIn : Option ScrapeContinuation) (env : PassEnv)
    (store : ContStore) (r : ProgressiveScrapeResult) (s' : ContStore)
    (h : runPass url contIn env store = (.ok r, s'))
    (hcomp : r.isComplete = true) : s' = store := by
  unfold runPass at h
  split at h
  · injection h with h1 h2
    exact PassOutcome.noConfusion h1
  · split at h
    · rw [catchPath_pair_incomplete _ _ _ _ _ _ _ _ h] at hcomp
      exact Bool.noConfusion hcomp
    · split at h
      split at h
      · unfold deadlineReturn at h
        injection h with h1 h2
        rw [PassOutcome.ok.injEq] at h1
        rw [← h1] at hcomp
        exact Bool.noConfusion hcomp
      · split at h
        · exact linkedinArm_complete_store _ _ _ _ _ _ _ _ h hcomp
        · injection h with h1 h2
          exact PassOutcome.noConfusion h1
        · injection h with h1 h2
          exact PassOutcome.noConfusion h1

/-- C4, counterexample: a pass that returns `complete: true` leaves the
token in the Continuation Store, which still resolves afterwards —
refuting the claim that the job is deleted from the store on
completion. -/
theorem complete_pass_token_still_resolves :
    runPass liUrl (some completeCont) okEnv contStore0 =
        (.ok ⟨some sampleProfile, true, none, "f", "l"⟩, contStore0) ∧
      (getContinuation 5 "T" contStore0).1 = some completeCont := by
  constructor
  · decide
  · decide

/-- C4 (amended), witness: the completing pass above leaves the store
unchanged. -/
theorem complete_pass_store_unchanged_witness : contStore0 = contStore0 :=
  complete_pass_store_unchanged liUrl (some completeCont) okEnv contStore0
    ⟨some sampleProfile, true, none, "f", "l"⟩ contStore0 (by decide) rfl

/-! ### C5: hard-failure semantics -/

/-- C5: a hard failure acquiring or navigating the worker surfaces as an
error when the partial record is still empty (for a fresh job or a
resumed one with no partial data), and is downgraded to a
`complete:false` resumable outcome — returning the partial record with a
persisted continuation — when a non-empty partial record exists. -/
theorem hard_failure_semantics (url : Url) (c : ScrapeContinuation)
    (env : PassEnv) (store : ContStore) (msg : String)
    (hv : validateUrl url = true) (hf : env.fail = some msg) :
    (c.partialData = none →
        runPass url (some c) env store =
          (.err ("Failed to scrape profile: " ++ msg), store)) ∧
      (∀ d, c.partialData = some d →
        runPass url (some c) env store =
          (.ok ⟨some d, false, some { c with timestamp := env.now },
              c.firstVisibleText.getD "", c.lastVisibleText.getD ""⟩,
           setContinuation env.now c.sessionId
             { c with timestamp := env.now } store)) ∧
      runPass url none env store =
        (.err ("Failed to scrape profile: " ++ msg), store) := by
  have hv' : (!validateUrl url) = false := by rw [hv]; rfl
  refine ⟨?_, ?_, ?_⟩
  · intro hp
    unfold runPass
    rw [hv']
    simp only [Bool.false_eq_true, if_false, hf, Option.getD_some]
    unfold catchPath
    rw [hp]
    rfl
  · intro d hp
    unfold runPass
    rw [hv']
    simp only [Bool.false_eq_true, if_false, hf, Option.getD_some]
    unfold catchPath
    rw [hp]
    rfl
  · unfold runPass
    rw [hv']
    simp only [Bool.false_eq_true, if_false, hf, Option.getD_none]
    unfold catchPath
    simp only [freshContinuation, Option.isSome_none, Bool.false_eq_true,
      if_false]

/-- C5, witness: at the concrete failing environment, the resumed job
with a non-empty partial record is downgraded to a resumable outcome,
and the fresh job errors. -/
theorem hard_failure_semantics_witness :
    runPass liUrl (some sampleCont) failEnv [] =
        (.ok ⟨some sampleProfile, false,
            some { sampleCont with timestamp := 5 }, "", ""⟩,
         setContinuation 5 "S" { sampleCont with timestamp := 5 } []) ∧
      runPass liUrl none failEnv [] =
        (.err "Failed to scrape profile: nav crash", []) := by
  constructor
  · exact (hard_failure_semantics liUrl sampleCont failEnv [] "nav crash"
      (by decide) rfl).2.1 sampleProfile rfl
  · exact (hard_failure_semantics liUrl sampleCont failEnv [] "nav crash"
      (by decide) rfl).2.2

/-! ### C7: the monthly quota counts successful extractions -/

lemma quotaCount_check (m : String) (q : QuotaStore) :
    quotaCount m (checkLinkedInMonthlyLimit m q).2 = quotaCount m q := by
  unfold checkLinkedInMonthlyLimit quotaCleanup
  cases q with
  | none => simp [quotaCount]
  | some e =>
      by_cases hm : e.month = m
      · simp only [hm, bne_self_eq_false, Bool.false_eq_true, if_false]
        split <;> simp [quotaCount, hm]
      · simp [quotaCount, hm]

lemma quotaCount_increment (m : String) (q : QuotaStore) :
    quotaCount m (incrementLinkedInScrapeCount m q) =
      quotaCount m q + 1 := by
  unfold incrementLinkedInScrapeCount quotaCleanup
  cases q with
  | none => simp [quotaCount]
  | some e =>
      by_cases hm : e.month = m
      · simp only [hm, bne_self_eq_false, Bool.false_eq_true, if_false]
        simp [quotaCount, hm]
      · simp [quotaCount, hm]

lemma postScrapePhase_quota (t : Url) (c : Option ScrapeContinuation)
    (env : RouteEnv) (st : RouteState) (o : RouteResponse)
    (st' : RouteState) (hps : postScrapePhase t c env st = (o, st')) :
    quotaCount env.month st'.quota =
      quotaCount env.month st.quota + successIndicator o := by
  unfold postScrapePhase at hps
  repeat' (first | split at hps | dsimp only at hps)
  all_goals
    (injection hps with h1 h2
     subst h1
     subst h2
     simp [*, successIndicator, scrapeErrorResponse, quotaCount_increment])

lemma POST_quota_pair (req : RouteRequest) (env : RouteEnv)
    (st : RouteState) (o : RouteResponse) (st' : RouteState)
    (hps : POST req env st = (o, st')) :
    quotaCount env.month st'.quota =
      quotaCount env.month st.quota + successIndicator o := by
  unfold POST at hps
  repeat' (first | split at hps | dsimp only at hps)
  all_goals
    first
    | (injection hps with h1 h2
       subst h1
       subst h2
       simp [*, successIndicator, quotaCount_check])
    | (have h := postScrapePhase_quota _ _ _ _ _ _ hps
       rw [h]
       try simp [quotaCount_check])

lemma POST_quota_call (c : RouteCall) (st : RouteState) :
    quotaCount c.env.month (POST c.req c.env st).2.quota =
      quotaCount c.env.month st.quota +
        (if isLinkedInSuccess c st then 1 else 0) := by
  rw [POST_quota_pair c.req c.env st (POST c.req c.env st).1
    (POST c.req c.env st).2 rfl]
  unfold isLinkedInSuccess successIndicator
  congr 1
  generalize (POST c.req c.env st).1 = o
  cases o <;> simp

/-- C7: the LinkedIn monthly quota counter is incremented exactly on
successful extractions.  Across any sequence of requests whose
environments share the month `m`, the counter for `m` grows by exactly
the number of calls the handler answered with a scrape-result response
for a LinkedIn target; rejections (rate/concurrency/quota limits, bad
tokens or URLs), failed passes, timed-out races and non-LinkedIn targets
contribute nothing. -/
theorem quota_counts_successful_extractions
    (calls : List RouteCall) (m : String) (st : RouteState)
    (hm : ∀ c ∈ calls, c.env.month = m) :
    quotaCount m (routeRun calls st).quota =
      quotaCount m st.quota + successCount calls st := by
  induction calls generalizing st with
  | nil => simp [routeRun, successCount]
  | cons c rest ih =>
      have hc : c.env.month = m := hm c (List.mem_cons_self c rest)
      have hrest : ∀ c' ∈ rest, c'.env.month = m :=
        fun c' h => hm c' (List.mem_cons_of_mem c h)
      simp only [routeRun, successCount]
      rw [ih ((POST c.req c.env st).2) hrest]
      have h := POST_quota_call c st
      rw [hc] at h
      rw [h]
      omega

/-! ## Invalid-target admission (C9) -/

lemma lookupStore_filter_none {α : Type} (p : String × α → Bool)
    (k : String) (s : List (String × α))
    (h : lookupStore s k = none) :
    lookupStore (s.filter p) k = none := by
  induction s with
  | nil => exact h
  | cons a rest ih =>
      cases a with
      | mk ka va =>
          rw [lookupStore] at h
          by_cases hk : (ka == k) = true
          · rw [if_pos hk] at h
            simp at h
          · rw [if_neg hk] at h
            rw [List.filter_cons]
            split
            · rw [lookupStore, if_neg hk]
              exact ih h
            · exact ih h

lemma lookupStore_delete_self {α : Type} (s : List (String × α))
    (k : String) : lookupStore (deleteStore s k) k = none := by
  induction s with
  | nil => rfl
  | cons a rest ih =>
      cases a with
      | mk ka va =>
          rw [deleteStore, List.filter_cons]
          split
          · rename_i hp
            have hk : (ka == k) = false := by simpa [bne] using hp
            rw [lookupStore, hk, if_neg Bool.false_ne_true]
            exact ih
          · exact ih

lemma startScrape_error_snd (now : Nat) (sid : String) (u : Url)
    (s : ConcStore) (msg : String)
    (h : (startScrape now sid u s).1 = .error msg) :
    (startScrape now sid u s).2 = cleanupStaleEntries now s := by
  unfold startScrape
  dsimp only
  by_cases hc :
      (!(canStartScrape now (cleanupStaleEntries now s)).1.allowed) = true
  · rw [if_pos hc]
  · exfalso
    unfold startScrape at h
    dsimp only at h
    rw [if_neg hc] at h
    simp at h

lemma finishScrape_lookup_self (now : Nat) (k : String) (s : ConcStore) :
    lookupStore (finishScrape now k s) k = none := by
  unfold finishScrape cleanupStaleEntries
  exact lookupStore_filter_none _ _ _ (lookupStore_delete_self s k)

/-- An invalid URL short-circuits the pass before any page work
(scraper.ts:3125-3127, before the `try`): the pass throws
`'Invalid URL format'` and the continuation store is untouched. -/
lemma runPass_invalid (u : Url) (c : Option ScrapeContinuation)
    (env : PassEnv) (store : ContStore) (h : validateUrl u = false) :
    runPass u c env store = (.err "Invalid URL format", store) := by
  unfold runPass
  rw [h]
  rfl

lemma postScrapePhase_invalid (t : Url) (c : Option ScrapeContinuation)
    (env : RouteEnv) (st : RouteState) (o : RouteResponse)
    (st' : RouteState) (h : validateUrl t = false)
    (hps : postScrapePhase t c env st = (o, st')) :
    isRejection o = true ∧ st'.quota = st.quota ∧ st'.conts = st.conts ∧
      st'.rate = st.rate ∧
      st'.active = finishScrape env.now env.scrapeId st.active := by
  unfold postScrapePhase at hps
  rw [runPass_invalid t c env.pass st.conts h] at hps
  dsimp only at hps
  split at hps <;>
    (injection hps with ha hb
     subst ha
     subst hb
     simp [isRejection, scrapeErrorResponse])

lemma POST_invalid_pair (req : RouteRequest) (env : RouteEnv)
    (st : RouteState) (u : Url) (o : RouteResponse) (st' : RouteState)
    (h1 : req.continuationToken = none) (h2 : req.url = some u)
    (h3 : validateUrl u = false)
    (hid : lookupStore st.active env.scrapeId = none)
    (hps : POST req env st = (o, st')) :
    isRejection o = true ∧
      quotaCount env.month st'.quota = quotaCount env.month st.quota ∧
      st'.conts = st.conts ∧
      st'.rate = (checkRateLimit env.now req.ip st.rate).2 ∧
      lookupStore st'.active env.scrapeId = none := by
  unfold POST at hps
  rw [h1, h2] at hps
  dsimp only at hps
  repeat' (first | split at hps | dsimp only at hps)
  all_goals
    first
    | (obtain ⟨hr, hq, hc, hra, hac⟩ :=
         postScrapePhase_invalid _ _ _ _ _ _ h3 hps
       refine ⟨hr, ?_, ?_, ?_, ?_⟩
       · rw [hq]
         try simp [quotaCount_check]
       · rw [hc]
       · rw [hra]
       · rw [hac]
         exact finishScrape_lookup_self _ _ _)
    | (injection hps with ha hb
       subst ha
       subst hb
       refine ⟨by simp [isRejection], by simp [quotaCount_check],
         rfl, rfl, ?_⟩
       first
       | exact hid
       | (rw [canStartScrape_snd]
          exact lookupStore_filter_none _ _ _ hid)
       | (rename_i msg heq
          rw [startScrape_error_snd _ _ _ _ _ heq]
          refine lookupStore_filter_none _ _ _ ?_
          rw [canStartScrape_snd]
          exact lookupStore_filter_none _ _ _ hid))

/-- C9, counterexample: the rate limiter runs *before* any URL handling
(route.ts:16-27), so a malformed-target request does consume a rate-limit
window unit.  From the empty state the handler answers the request for
the non-parsing URL with the Invalid-URL error, yet the rate store now
holds one unit against the caller's IP.  This refutes "consumes no
admission: does not consume a rate-limit window unit". -/
theorem invalid_target_consumes_rate_unit :
    (POST ⟨"ip1", some badUrl, none⟩ goodRouteEnv st0).1 =
        .scrapeError "Invalid URL format" 500 ∧
      (POST ⟨"ip1", some badUrl, none⟩ goodRouteEnv st0).2.rate =
        [("ip1", ⟨1, RATE_LIMIT_WINDOW_MS⟩)] ∧
      st0.rate = [] := by decide

/-- C9 (amended): a plain-URL request whose target fails URL validation
is answered with a rejection (never a scrape result), consumes no
LinkedIn quota, stores no continuation, and retains no concurrency slot
(the `finally` clause releases any slot that was registered) — but it
*does* consume one rate-limit window unit, because the rate limiter runs
before any URL validation. -/
theorem invalid_target_admission (req : RouteRequest) (env : RouteEnv)
    (st : RouteState) (u : Url)
    (h1 : req.continuationToken = none) (h2 : req.url = some u)
    (h3 : validateUrl u = false)
    (hid : lookupStore st.active env.scrapeId = none) :
    isRejection (POST req env st).1 = true ∧
      quotaCount env.month (POST req env st).2.quota =
        quotaCount env.month st.quota ∧
      (POST req env st).2.conts = st.conts ∧
      (POST req env st).2.rate = (checkRateLimit env.now req.ip st.rate).2 ∧
      lookupStore (POST req env st).2.active env.scrapeId = none :=
  POST_invalid_pair req env st u (POST req env st).1 (POST req env st).2
    h1 h2 h3 hid rfl

/-- C9, witness: the malformed-URL request from the empty state. -/
theorem invalid_target_admission_witness :
    ((⟨"ip1", some badUrl, none⟩ : RouteRequest).continuationToken = none ∧
       (⟨"ip1", some badUrl, none⟩ : RouteRequest).url = some badUrl ∧
       validateUrl badUrl = false ∧
       lookupStore st0.active goodRouteEnv.scrapeId = none) ∧
      (isRejection (POST ⟨"ip1", some badUrl, none⟩ goodRouteEnv st0).1 =
          true ∧
        quotaCount goodRouteEnv.month
            (POST ⟨"ip1", some badUrl, none⟩ goodRouteEnv st0).2.quota =
          quotaCount goodRouteEnv.month st0.quota ∧
        (POST ⟨"ip1", some badUrl, none⟩ goodRouteEnv st0).2.conts =
          st0.conts ∧
        (POST ⟨"ip1", some badUrl, none⟩ goodRouteEnv st0).2.rate =
          (checkRateLimit goodRouteEnv.now "ip1" st0.rate).2 ∧
        lookupStore (POST ⟨"ip1", some badUrl, none⟩ goodRouteEnv st0).2.active
            goodRouteEnv.scrapeId = none) :=
  ⟨by decide,
   invalid_target_admission ⟨"ip1", some badUrl, none⟩ goodRouteEnv st0
     badUrl rfl rfl (by decide) (by decide)⟩

/-- C7, witness: a single plain-URL LinkedIn request during `2025-01`,
starting from the empty governor state. -/
theorem quota_counts_successful_extractions_witness :
    (∀ c ∈ [sampleCall], c.env.month = "2025-01") ∧
      quotaCount "2025-01" (routeRun [sampleCall] st0).quota =
        quotaCount "2025-01" st0.quota + successCount [sampleCall] st0 :=
  ⟨by decide,
   quota_counts_successful_extractions [sampleCall] "2025-01" st0
     (by decide)⟩

end Scraper
